import Mathlib

/-!
Verification of the frame-reassembly and ring-buffering core of the
useeplus-windows-viewer camera driver (src/src/useeplus_camera.c).

The model is a shallow embedding of the C code. Bytes are natural numbers
(concrete inputs stay below 256). A frame slot models the C struct
camera_frame: the `data` list models the first `size` bytes of the
malloc-ed buffer (so `data.length` is the C `size` field, and bytes of the
buffer beyond `size` are never read by the C code), `ready` models the
ready flag, and `alloc` models whether `data` is non-NULL (lazy
allocation; malloc is assumed to succeed). The device state models the
fields of camera_device that the ring logic reads or writes. The
thread-local last_error string is modeled, where a claim needs it, by an
explicit message tag returned next to the status code, one tag per
set_error call site.

camera_read_frame is modeled as the single lock-protected check of its
waiting loop: with no concurrent producer the C loop either succeeds or
returns BufferTooSmall on the first check, or waits until the (finite)
timeout expires and returns CAMERA_ERROR_TIMEOUT; the model returns the
corresponding result directly.
-/

namespace Useeplus

/-! ### Definitions: constants and data model -/

/-- BUFFER_SIZE in the C code: 64*1024, the fixed capacity of a slot. -/
def BUFFER_SIZE : Nat := 65536

/-- MAX_FRAMES in the C code: the ring has 12 slots. -/
def MAX_FRAMES : Nat := 12

/-- HEADER_SIZE in process_data: the proprietary header is 12 bytes. -/
def HEADER_SIZE : Nat := 12

/-- MIN_JPEG_SIZE in process_data. -/
def MIN_JPEG_SIZE : Nat := 1000

/-- MAX_JPEG_SIZE in process_data: BUFFER_SIZE - 4096. -/
def MAX_JPEG_SIZE : Nat := BUFFER_SIZE - 4096

/-- CONNECT_CMD_SIZE in the C code. -/
def CONNECT_CMD_SIZE : Nat := 5

/-- One ring slot (C struct camera_frame). -/
structure Frame where
  data : List Nat
  ready : Bool
  alloc : Bool
  deriving Repr, DecidableEq

/-- The ring and statistics fields of C struct camera_device. -/
structure CamState where
  frames : Nat → Frame
  writeFrame : Nat
  readFrame : Nat
  framesCaptured : Nat
  framesDropped : Nat
  streaming : Bool

attribute [ext] CamState

/-- Replace slot `i` of the ring. -/
def setFrame (s : CamState) (i : Nat) (fr : Frame) : CamState :=
  { s with frames := fun j => if j = i then fr else s.frames j }

/-- Status codes from useeplus_camera.h. -/
inductive CameraStatus where
  | success
  | errorNotFound
  | errorOpenFailed
  | errorInitFailed
  | errorNoFrame
  | errorBufferSmall
  | errorInvalidParam
  | errorUsbFailed
  | errorTimeout
  deriving Repr, DecidableEq

/-! ### Definitions: the frame reassembler (process_data) -/

/-- The check `length >= 3 && data[0] == 0xaa && data[1] == 0xbb && data[2] == 0x07`
at the top of process_data. -/
def magicOK (pkt : List Nat) : Prop :=
  3 ≤ pkt.length ∧ pkt.getD 0 0 = 170 ∧ pkt.getD 1 0 = 187 ∧ pkt.getD 2 0 = 7

instance (pkt : List Nat) : Decidable (magicOK pkt) := by
  unfold magicOK; infer_instance

/-- Lazy allocation of a slot buffer (`if (!frame->data) { malloc ... }`).
A freshly allocated slot has size 0 and ready = false, as in the C code. -/
def allocSlot (fr : Frame) : Frame :=
  if fr.alloc then fr else ⟨[], false, true⟩

/-- Lines 844-850 of process_data: if the payload starts with the JPEG SOI
marker and the slot holds unfinished data, the unfinished data is discarded. -/
def soiDiscard (payload : List Nat) (fr : Frame) : Frame :=
  if 2 ≤ payload.length ∧ payload.take 2 = [255, 216] ∧
      0 < fr.data.length ∧ fr.ready = false then
    { fr with data := [] }
  else fr

/-- The EOI scan loop of process_data (lines 871-946), walking the
accumulated buffer: `prev` is `data[i-1]`, the head of `rest` is `data[i]`.
A match is accepted (returning the complete frame size `i + 1`) iff the
candidate length is at least MIN_JPEG_SIZE and the buffer starts with SOI;
a match failing this test does not stop the scan (the C loop continues). -/
def scanEOIAux (l : List Nat) (prev : Nat) (rest : List Nat) (i : Nat) : Option Nat :=
  match rest with
  | [] => none
  | b :: tl =>
    if prev = 255 ∧ b = 217 ∧ MIN_JPEG_SIZE ≤ i + 1 ∧ l.take 2 = [255, 216] then
      some (i + 1)
    else scanEOIAux l b tl (i + 1)

/-- The EOI scan over the whole accumulated buffer, starting at index 1. -/
def scanEOI (l : List Nat) : Option Nat :=
  match l with
  | [] => none
  | b :: tl => scanEOIAux l b tl 1

/-- Lines 881-940 of process_data: on an accepted EOI at complete frame size
`complete`, save the leftover, mark the frame ready, bump the captured
counter, advance the write pointer (dropping the oldest frame if the ring
is full), initialize the next slot, and seed it with the leftover only if
the leftover itself starts with SOI. -/
def acceptFrame (s : CamState) (complete : Nat) : CamState :=
  let wi := s.writeFrame
  let fr := s.frames wi
  let leftover := fr.data.drop complete
  let s1 := setFrame s wi { fr with data := fr.data.take complete, ready := true }
  let s2 := { s1 with framesCaptured := s1.framesCaptured + 1 }
  let nextWrite := (wi + 1) % MAX_FRAMES
  let s3 := { s2 with
    framesDropped :=
      if nextWrite = s2.readFrame ∧ (s2.frames s2.readFrame).ready = true then
        s2.framesDropped + 1
      else s2.framesDropped,
    readFrame :=
      if nextWrite = s2.readFrame ∧ (s2.frames s2.readFrame).ready = true then
        (s2.readFrame + 1) % MAX_FRAMES
      else s2.readFrame }
  let s4 := { s3 with writeFrame := nextWrite }
  let nf := allocSlot (s4.frames nextWrite)
  let newData :=
    if (0 < leftover.length ∧ leftover.length < BUFFER_SIZE) ∧ 2 ≤ leftover.length then
      if leftover.take 2 = [255, 216] then leftover else []
    else []
  setFrame s4 nextWrite { nf with data := newData, ready := false }

/-- Lines 949-953 of process_data: if the current write slot has grown past
MAX_JPEG_SIZE without completing, reset it. -/
def safetyCheck (s : CamState) : CamState :=
  if MAX_JPEG_SIZE < (s.frames s.writeFrame).data.length ∧
      (s.frames s.writeFrame).ready = false then
    setFrame s s.writeFrame { s.frames s.writeFrame with data := [] }
  else s

/-- process_data (lines 796-958): validate the packet magic, lazily allocate
the write slot, strip the 12-byte header, apply the SOI-restart rule, check
for overflow, append the payload, scan for EOI, and finally apply the
too-large safety valve to the current write slot. -/
def processData (s : CamState) (pkt : List Nat) : CamState :=
  if magicOK pkt then
    let wi := s.writeFrame
    let s1 := setFrame s wi (allocSlot (s.frames wi))
    if HEADER_SIZE < pkt.length then
      let payload := pkt.drop HEADER_SIZE
      let fr1 := soiDiscard payload (s1.frames wi)
      if BUFFER_SIZE < fr1.data.length + payload.length then
        let fr2 :=
          if 2 ≤ payload.length ∧ payload.take 2 = [255, 216] then
            (⟨payload, false, true⟩ : Frame)
          else (⟨[], false, true⟩ : Frame)
        setFrame s1 wi fr2
      else
        let fr2 := { fr1 with data := fr1.data ++ payload }
        let s2 := setFrame s1 wi fr2
        match scanEOI fr2.data with
        | some complete => safetyCheck (acceptFrame s2 complete)
        | none => safetyCheck s2
    else s1
  else s

/-! ### Definitions: the public session operations -/

/-- camera_read_frame (lines 961-1029), single pass of the waiting loop:
returns the status, the bytes copied into the caller buffer, and the
post-call state. The buffer is modeled by its size. -/
def cameraReadFrame (s : CamState) (bufferSize : Nat) :
    CameraStatus × List Nat × CamState :=
  if s.streaming = false then (.errorNoFrame, [], s)
  else
    let fr := s.frames s.readFrame
    if fr.ready = true then
      if bufferSize < fr.data.length then (.errorBufferSmall, [], s)
      else
        let s1 := setFrame s s.readFrame { fr with ready := false, data := [] }
        (.success, fr.data, { s1 with readFrame := (s.readFrame + 1) % MAX_FRAMES })
    else (.errorTimeout, [], s)

/-- camera_stop_streaming (lines 668-714): no-op when not streaming;
otherwise clear the streaming flag, clear every slot of the ring (ready
flag and size), and reset both indices. The statistics counters are not
touched. -/
def cameraStopStreaming (s : CamState) : CamState :=
  if s.streaming = false then s
  else
    { s with streaming := false,
             frames := fun j =>
               if j < MAX_FRAMES then
                 { s.frames j with ready := false, data := [] }
               else s.frames j,
             readFrame := 0,
             writeFrame := 0 }

/-- One message tag per set_error call site reached by camera_start_streaming
and send_command, modeling the distinct thread-local error strings. -/
inductive StartFailure where
  | altSetting
  | handshakeWrite
  | handshakeShort
  | threadCreate
  deriving Repr, DecidableEq

/-- send_command (lines 572-593), with the outcome of WinUsb_WritePipe
given as parameters: `writeOk` is its BOOL result and `bytesSent` the
transferred count. -/
def sendCommand (writeOk : Bool) (bytesSent len : Nat) :
    CameraStatus × Option StartFailure :=
  if writeOk = false then (.errorUsbFailed, some .handshakeWrite)
  else if bytesSent ≠ len then (.errorUsbFailed, some .handshakeShort)
  else (.success, none)

/-- camera_start_streaming (lines 596-665), with the outcomes of the three
fallible platform steps given as parameters: `altOk` for
WinUsb_SetCurrentAlternateSetting(1), `writeOk`/`bytesSent` for the
handshake write inside send_command, `threadOk` for CreateThread. -/
def cameraStartStreaming (s : CamState) (altOk writeOk : Bool) (bytesSent : Nat)
    (threadOk : Bool) : CameraStatus × Option StartFailure × CamState :=
  if s.streaming = true then (.success, none, s)
  else if altOk = false then (.errorInitFailed, some .altSetting, s)
  else
    let cmd := sendCommand writeOk bytesSent CONNECT_CMD_SIZE
    if cmd.1 ≠ .success then (cmd.1, cmd.2, s)
    else if threadOk = false then
      (.errorInitFailed, some .threadCreate, { s with streaming := false })
    else (.success, none, { s with streaming := true })

/-- camera_get_stats (lines 780-793). -/
def cameraGetStats (s : CamState) : Nat × Nat :=
  (s.framesCaptured, s.framesDropped)

/-- The device state right after camera_open_path: calloc zeroes the whole
structure, so every slot is unallocated with size 0, both indices and both
counters are 0, and streaming is off. -/
def openState : CamState :=
  { frames := fun _ => ⟨[], false, false⟩,
    writeFrame := 0,
    readFrame := 0,
    framesCaptured := 0,
    framesDropped := 0,
    streaming := false }

/-- The state after camera_open_path followed by a fully successful
camera_start_streaming: only the streaming flag changes. -/
def startedState : CamState :=
  (cameraStartStreaming openState true true CONNECT_CMD_SIZE true).2.2

/-! ### Definitions: scan acceptance condition -/

/-- The acceptance condition of the EOI scan at index `i` of the accumulated
buffer `l`: the loop is at a valid index, the two-byte EOI marker ends at
`i`, the candidate frame `[0, i+1)` reaches MIN_JPEG_SIZE, and the buffer
starts with the SOI marker. -/
def eoiCond (l : List Nat) (i : Nat) : Prop :=
  1 ≤ i ∧ i < l.length ∧ l.getD (i - 1) 0 = 255 ∧ l.getD i 0 = 217 ∧
    MIN_JPEG_SIZE ≤ i + 1 ∧ l.take 2 = [255, 216]

instance (l : List Nat) (i : Nat) : Decidable (eoiCond l i) := by
  unfold eoiCond; infer_instance

/-- The contents of the write slot after the SOI-restart rule and the
payload append, as accumulated by the non-overflow branch of process_data. -/
def appendedData (s : CamState) (pkt : List Nat) : List Nat :=
  (soiDiscard (pkt.drop HEADER_SIZE) (allocSlot (s.frames s.writeFrame))).data ++
    pkt.drop HEADER_SIZE

/-! ### Definitions: inputs and states used by the individual claims -/

/-- A well-formed 1000-byte JPEG-like frame carrying the tag `m % 256` at
offset 2: SOI, tag, zero filler, EOI. Its only EOI pair ends at offset 999. -/
def jpegF (m : Nat) : List Nat :=
  255 :: 216 :: (m % 256) :: (List.replicate 995 0 ++ [255, 217])

/-- A 12-byte packet header starting with the vendor magic AA BB 07. -/
def hdr12 : List Nat := [170, 187, 7, 0, 0, 0, 0, 0, 0, 0, 0, 0]

/-- A single packet delivering the complete frame `jpegF m`. -/
def framePkt (m : Nat) : List Nat := hdr12 ++ jpegF m

/-- The state after the producer has completed `k` frames
(`framePkt 1 .. framePkt k`) with no intervening reads. -/
def produceK (k : Nat) : CamState :=
  (List.range k).foldl (fun s m => processData s (framePkt (m + 1))) startedState

/-- The expected contents of ring slot `j` after `k` completed frames and no
reads: the current write slot is clean, and the up-to-11 most recent frames
are ready in their slots. -/
def expectedSlot (k j : Nat) : Frame :=
  if 12 ≤ j then ⟨[], false, false⟩
  else if k = 0 then ⟨[], false, false⟩
  else if j = k % 12 then ⟨[], false, true⟩
  else if j + 1 ≤ k then ⟨jpegF (k - (k - j - 1) % 12), true, true⟩
  else ⟨[], false, false⟩

/-- The expected full device state after `k` completed frames and no reads. -/
def stateAfter (k : Nat) : CamState :=
  { frames := fun j => expectedSlot k j,
    writeFrame := k % 12,
    readFrame := (k - min k 11) % 12,
    framesCaptured := k,
    framesDropped := k - min k 11,
    streaming := true }

/-- Validity of a packet for the reassembly claim: full 12-byte header
starting with the vendor magic. -/
def packetOK (p : List Nat) : Prop :=
  HEADER_SIZE ≤ p.length ∧ p.take 3 = [170, 187, 7]

instance (p : List Nat) : Decidable (packetOK p) := by
  unfold packetOK
  infer_instance

/-- The accumulating state while a single frame is being reassembled:
slot 0 holds the accumulated prefix `P`, nothing is ready yet. -/
def accState (P : List Nat) (a : Bool) : CamState :=
  { frames := fun j => if j = 0 then ⟨P, false, a⟩ else ⟨[], false, false⟩,
    writeFrame := 0,
    readFrame := 0,
    framesCaptured := 0,
    framesDropped := 0,
    streaming := true }

/-- The state right after the single frame `b` has been accepted. -/
def doneState (b : List Nat) : CamState :=
  { frames := fun j =>
      if j = 0 then ⟨b, true, true⟩
      else if j = 1 then ⟨[], false, true⟩
      else ⟨[], false, false⟩,
    writeFrame := 1,
    readFrame := 0,
    framesCaptured := 1,
    framesDropped := 0,
    streaming := true }

/-- A byte string shaped like a completed frame as the reassembler accepts
them: SOI at the start, EOI at the end, plausible length within a slot. -/
def jpegWF (l : List Nat) : Prop :=
  l.take 2 = [255, 216] ∧ l.drop (l.length - 2) = [255, 217] ∧
    MIN_JPEG_SIZE ≤ l.length ∧ l.length ≤ BUFFER_SIZE

/-- A slot is well-formed when, if it is ready, it holds a frame shaped
like an accepted JPEG. -/
def frameWF (fr : Frame) : Prop :=
  fr.ready = true → jpegWF fr.data

/-- The inductive ring invariant: every ready slot is well-formed, the
current write slot is never ready, both indices are in range, and no slot
size exceeds the slot capacity. -/
def InvWF (s : CamState) : Prop :=
  (∀ j, j < MAX_FRAMES → frameWF (s.frames j)) ∧
    (s.frames s.writeFrame).ready = false ∧
    s.writeFrame < MAX_FRAMES ∧ s.readFrame < MAX_FRAMES ∧
    (∀ j, j < MAX_FRAMES → (s.frames j).data.length ≤ BUFFER_SIZE)

instance (s : CamState) : Decidable (InvWF s) := by
  unfold InvWF frameWF jpegWF; infer_instance

/-- The C1 counterexample packet: a minimal 4-byte JPEG (SOI then EOI)
delivered in one packet. -/
def c1pkt : List Nat := hdr12 ++ [255, 216, 255, 217]

/-- The C6 counterexample packet: the payload contains an early EOI pair at
offset 2-3 (candidate length 4, below MIN_JPEG_SIZE) followed by filler and
a second EOI pair at offset 1000-1001. -/
def c6pkt : List Nat := hdr12 ++ ([255, 216, 255, 217] ++ List.replicate 996 0 ++ [255, 217])

/-- The C8 counterexample packet: a complete 1000-byte frame followed by
61441 leftover bytes that start with SOI; the leftover exceeds
MAX_JPEG_SIZE, so the safety valve wipes it after it is seeded. -/
def c8pkt : List Nat := hdr12 ++ (jpegF 1 ++ ([255, 216] ++ List.replicate 61439 0))

/-- A concrete streaming state with one ready 3-byte frame in slot 0, used
to witness the BufferTooSmall contract. -/
def wit3State : CamState :=
  { frames := fun j => if j = 0 then ⟨[255, 216, 217], true, true⟩ else ⟨[], false, false⟩,
    writeFrame := 1,
    readFrame := 0,
    framesCaptured := 1,
    framesDropped := 0,
    streaming := true }

/-! ### Theorems: basic facts about the state operations -/

theorem Frame_data_mk (d : List Nat) (r a : Bool) : (Frame.mk d r a).data = d := rfl

@[simp] theorem setFrame_frames_self (s : CamState) (i : Nat) (fr : Frame) :
    (setFrame s i fr).frames i = fr := by
  simp [setFrame]

theorem setFrame_frames_other (s : CamState) (i : Nat) (fr : Frame) (j : Nat)
    (h : j ≠ i) : (setFrame s i fr).frames j = s.frames j := by
  simp [setFrame, h]

@[simp] theorem setFrame_writeFrame (s : CamState) (i : Nat) (fr : Frame) :
    (setFrame s i fr).writeFrame = s.writeFrame := rfl

@[simp] theorem setFrame_readFrame (s : CamState) (i : Nat) (fr : Frame) :
    (setFrame s i fr).readFrame = s.readFrame := rfl

@[simp] theorem setFrame_framesCaptured (s : CamState) (i : Nat) (fr : Frame) :
    (setFrame s i fr).framesCaptured = s.framesCaptured := rfl

@[simp] theorem setFrame_framesDropped (s : CamState) (i : Nat) (fr : Frame) :
    (setFrame s i fr).framesDropped = s.framesDropped := rfl

@[simp] theorem setFrame_streaming (s : CamState) (i : Nat) (fr : Frame) :
    (setFrame s i fr).streaming = s.streaming := rfl

theorem setFrame_setFrame (s : CamState) (i : Nat) (a b : Frame) :
    setFrame (setFrame s i a) i b = setFrame s i b := by
  unfold setFrame
  ext j
  all_goals try rfl
  by_cases h : j = i <;> simp [h]

theorem startedState_eq : startedState = { openState with streaming := true } := rfl

/-! ### Theorems: characterization of the EOI scan -/

theorem drop_eq_cons_facts {l : List Nat} {i b : Nat} {tl : List Nat}
    (h : l.drop i = b :: tl) :
    l.getD i 0 = b ∧ l.drop (i + 1) = tl ∧ i < l.length := by
  have hlen : i < l.length := by
    by_contra hc
    rw [List.drop_eq_nil_of_le (by omega)] at h
    exact List.noConfusion h
  refine ⟨?_, ?_, hlen⟩
  · have h0 : l[i]? = some b := by
      have := List.getElem?_drop l i 0
      rw [h] at this
      simpa using this.symm
    simp [List.getD_eq_getElem?_getD, h0]
  · have : List.drop 1 (List.drop i l) = List.drop (i + 1) l := List.drop_drop 1 i l
    rw [h] at this
    simpa using this.symm

theorem scanEOIAux_eq_none (l : List Nat) :
    ∀ (rest : List Nat) (i prev : Nat), l.drop i = rest → prev = l.getD (i - 1) 0 →
      1 ≤ i → (∀ j, i ≤ j → ¬ eoiCond l j) → scanEOIAux l prev rest i = none := by
  intro rest
  induction rest with
  | nil => intro i prev _ _ _ _; rfl
  | cons b tl ih =>
    intro i prev hdrop hprev hi h
    obtain ⟨hb, htl, hlen⟩ := drop_eq_cons_facts hdrop
    unfold scanEOIAux
    rw [if_neg, ih (i + 1) b htl (by simpa using hb.symm) (by omega)
      (fun j hj => h j (by omega))]
    intro ⟨h1, h2, h3, h4⟩
    exact h i le_rfl ⟨hi, hlen, hprev.symm.trans h1, hb.trans h2, h3, h4⟩

theorem scanEOIAux_eq_some (l : List Nat) :
    ∀ (rest : List Nat) (i prev m : Nat), l.drop i = rest → prev = l.getD (i - 1) 0 →
      1 ≤ i → i ≤ m → eoiCond l m → (∀ j, i ≤ j → j < m → ¬ eoiCond l j) →
      scanEOIAux l prev rest i = some (m + 1) := by
  intro rest
  induction rest with
  | nil =>
    intro i prev m hdrop _ _ him hm _
    exfalso
    have hlen : m < l.length := hm.2.1
    have : l.length ≤ i := by
      by_contra hc
      have : l.drop i ≠ [] := by
        intro hnil
        have := congrArg List.length hnil
        simp at this
        omega
      exact this hdrop
    omega
  | cons b tl ih =>
    intro i prev m hdrop hprev hi him hm h
    obtain ⟨hb, htl, hlen⟩ := drop_eq_cons_facts hdrop
    unfold scanEOIAux
    rcases Nat.eq_or_lt_of_le him with heq | hlt
    · subst heq
      rw [if_pos ⟨hprev.trans hm.2.2.1, hb.symm.trans hm.2.2.2.1,
        hm.2.2.2.2.1, hm.2.2.2.2.2⟩]
    · rw [if_neg, ih (i + 1) b m htl (by simpa using hb.symm) (by omega) hlt hm
        (fun j hj hj2 => h j (by omega) hj2)]
      intro ⟨h1, h2, h3, h4⟩
      exact h i le_rfl hlt ⟨hi, hlen, hprev.symm.trans h1, hb.trans h2, h3, h4⟩

theorem scanEOIAux_sound (l : List Nat) :
    ∀ (rest : List Nat) (i prev c : Nat), l.drop i = rest → prev = l.getD (i - 1) 0 →
      1 ≤ i → scanEOIAux l prev rest i = some c →
      ∃ m, c = m + 1 ∧ i ≤ m ∧ eoiCond l m := by
  intro rest
  induction rest with
  | nil => intro i prev c _ _ _ h; exact absurd h (by simp [scanEOIAux])
  | cons b tl ih =>
    intro i prev c hdrop hprev hi h
    obtain ⟨hb, htl, hlen⟩ := drop_eq_cons_facts hdrop
    unfold scanEOIAux at h
    by_cases hc : prev = 255 ∧ b = 217 ∧ MIN_JPEG_SIZE ≤ i + 1 ∧ l.take 2 = [255, 216]
    · rw [if_pos hc] at h
      have hci : c = i + 1 := by injection h with h'; exact h'.symm
      exact ⟨i, hci, le_rfl,
        ⟨hi, hlen, hprev.symm.trans hc.1, hb.trans hc.2.1,
          hc.2.2.1, hc.2.2.2⟩⟩
    · rw [if_neg hc] at h
      obtain ⟨m, hm1, hm2, hm3⟩ := ih (i + 1) b c htl (by simpa using hb.symm) (by omega) h
      exact ⟨m, hm1, by omega, hm3⟩

theorem scanEOI_eq_none {l : List Nat} (h : ∀ j, ¬ eoiCond l j) : scanEOI l = none := by
  cases l with
  | nil => rfl
  | cons b tl =>
    exact scanEOIAux_eq_none (b :: tl) tl 1 b (by simp) (by simp) le_rfl
      (fun j _ => h j)

theorem scanEOI_eq_some {l : List Nat} {m : Nat} (hm : eoiCond l m)
    (hfirst : ∀ j, j < m → ¬ eoiCond l j) : scanEOI l = some (m + 1) := by
  cases l with
  | nil => exact absurd hm.2.1 (by simp)
  | cons b tl =>
    exact scanEOIAux_eq_some (b :: tl) tl 1 b m (by simp) (by simp) le_rfl hm.1 hm
      (fun j _ hj => hfirst j hj)

theorem scanEOI_sound {l : List Nat} {c : Nat} (h : scanEOI l = some c) :
    ∃ m, c = m + 1 ∧ eoiCond l m := by
  cases l with
  | nil => exact absurd h (by simp [scanEOI])
  | cons b tl =>
    obtain ⟨m, h1, _, h3⟩ := scanEOIAux_sound (b :: tl) tl 1 b c (by simp) (by simp) le_rfl h
    exact ⟨m, h1, h3⟩

/-! ### Theorems: path lemmas for process_data -/

/-- An invalid packet (bad magic) is silently discarded. -/
theorem processData_not_magic (s : CamState) (pkt : List Nat) (h : ¬ magicOK pkt) :
    processData s pkt = s := by
  unfold processData
  rw [if_neg h]

/-- A valid-magic packet with no payload only (possibly) allocates the
current write slot. -/
theorem processData_header_only (s : CamState) (pkt : List Nat) (h : magicOK pkt)
    (hlen : pkt.length ≤ HEADER_SIZE) :
    processData s pkt = setFrame s s.writeFrame (allocSlot (s.frames s.writeFrame)) := by
  unfold processData
  rw [if_pos h]
  simp only []
  rw [if_neg (by omega)]

/-- The overflow branch: the slot is reset, and re-seeded with the payload
exactly when the payload starts with SOI. -/
theorem processData_overflow (s : CamState) (pkt : List Nat) (h : magicOK pkt)
    (hlen : HEADER_SIZE < pkt.length)
    (hov : BUFFER_SIZE <
      (soiDiscard (pkt.drop HEADER_SIZE) (allocSlot (s.frames s.writeFrame))).data.length +
        (pkt.drop HEADER_SIZE).length) :
    processData s pkt = setFrame s s.writeFrame
      (if 2 ≤ (pkt.drop HEADER_SIZE).length ∧ (pkt.drop HEADER_SIZE).take 2 = [255, 216]
       then (⟨pkt.drop HEADER_SIZE, false, true⟩ : Frame)
       else (⟨[], false, true⟩ : Frame)) := by
  unfold processData
  rw [if_pos h]
  simp only [setFrame_frames_self, setFrame_writeFrame]
  rw [if_pos hlen, if_pos hov, setFrame_setFrame]

/-- The append branch when the scan accepts a frame. -/
theorem processData_append_some (s : CamState) (pkt : List Nat) (c : Nat) (h : magicOK pkt)
    (hlen : HEADER_SIZE < pkt.length)
    (hov : (soiDiscard (pkt.drop HEADER_SIZE) (allocSlot (s.frames s.writeFrame))).data.length +
        (pkt.drop HEADER_SIZE).length ≤ BUFFER_SIZE)
    (hscan : scanEOI ((soiDiscard (pkt.drop HEADER_SIZE)
        (allocSlot (s.frames s.writeFrame))).data ++ pkt.drop HEADER_SIZE) = some c) :
    processData s pkt = safetyCheck (acceptFrame
      (setFrame s s.writeFrame
        { soiDiscard (pkt.drop HEADER_SIZE) (allocSlot (s.frames s.writeFrame)) with
          data := (soiDiscard (pkt.drop HEADER_SIZE)
            (allocSlot (s.frames s.writeFrame))).data ++ pkt.drop HEADER_SIZE }) c) := by
  unfold processData
  rw [if_pos h]
  simp only [setFrame_frames_self, setFrame_writeFrame]
  rw [if_pos hlen, if_neg (by omega), hscan, setFrame_setFrame]

/-- The append branch when the scan does not accept a frame. -/
theorem processData_append_none (s : CamState) (pkt : List Nat) (h : magicOK pkt)
    (hlen : HEADER_SIZE < pkt.length)
    (hov : (soiDiscard (pkt.drop HEADER_SIZE) (allocSlot (s.frames s.writeFrame))).data.length +
        (pkt.drop HEADER_SIZE).length ≤ BUFFER_SIZE)
    (hscan : scanEOI ((soiDiscard (pkt.drop HEADER_SIZE)
        (allocSlot (s.frames s.writeFrame))).data ++ pkt.drop HEADER_SIZE) = none) :
    processData s pkt = safetyCheck
      (setFrame s s.writeFrame
        { soiDiscard (pkt.drop HEADER_SIZE) (allocSlot (s.frames s.writeFrame)) with
          data := (soiDiscard (pkt.drop HEADER_SIZE)
            (allocSlot (s.frames s.writeFrame))).data ++ pkt.drop HEADER_SIZE }) := by
  unfold processData
  rw [if_pos h]
  simp only [setFrame_frames_self, setFrame_writeFrame]
  rw [if_pos hlen, if_neg (by omega), hscan, setFrame_setFrame]

/-! ### Theorems: projections of the reassembler steps -/

@[simp] theorem safetyCheck_streaming (s : CamState) :
    (safetyCheck s).streaming = s.streaming := by
  unfold safetyCheck; split_ifs <;> rfl

@[simp] theorem safetyCheck_framesCaptured (s : CamState) :
    (safetyCheck s).framesCaptured = s.framesCaptured := by
  unfold safetyCheck; split_ifs <;> rfl

@[simp] theorem safetyCheck_framesDropped (s : CamState) :
    (safetyCheck s).framesDropped = s.framesDropped := by
  unfold safetyCheck; split_ifs <;> rfl

@[simp] theorem safetyCheck_writeFrame (s : CamState) :
    (safetyCheck s).writeFrame = s.writeFrame := by
  unfold safetyCheck; split_ifs <;> rfl

@[simp] theorem safetyCheck_readFrame (s : CamState) :
    (safetyCheck s).readFrame = s.readFrame := by
  unfold safetyCheck; split_ifs <;> rfl

@[simp] theorem acceptFrame_streaming (s : CamState) (c : Nat) :
    (acceptFrame s c).streaming = s.streaming := by
  simp only [acceptFrame]; split_ifs <;> rfl

@[simp] theorem acceptFrame_framesCaptured (s : CamState) (c : Nat) :
    (acceptFrame s c).framesCaptured = s.framesCaptured + 1 := by
  simp only [acceptFrame]; split_ifs <;> rfl

@[simp] theorem acceptFrame_writeFrame (s : CamState) (c : Nat) :
    (acceptFrame s c).writeFrame = (s.writeFrame + 1) % MAX_FRAMES := by
  simp only [acceptFrame]; split_ifs <;> rfl

theorem acceptFrame_framesDropped_le (s : CamState) (c : Nat) :
    s.framesDropped ≤ (acceptFrame s c).framesDropped := by
  simp only [acceptFrame]; split_ifs <;> simp

/-- Exhaustive case analysis for process_data in terms of its four outcome
shapes, phrased through the path lemmas. -/
theorem processData_cases (s : CamState) (pkt : List Nat) (motive : CamState → Prop)
    (hnm : ¬ magicOK pkt → motive s)
    (hho : magicOK pkt → pkt.length ≤ HEADER_SIZE →
      motive (setFrame s s.writeFrame (allocSlot (s.frames s.writeFrame))))
    (hov : magicOK pkt → HEADER_SIZE < pkt.length →
      BUFFER_SIZE <
        (soiDiscard (pkt.drop HEADER_SIZE) (allocSlot (s.frames s.writeFrame))).data.length +
          (pkt.drop HEADER_SIZE).length →
      motive (setFrame s s.writeFrame
        (if 2 ≤ (pkt.drop HEADER_SIZE).length ∧ (pkt.drop HEADER_SIZE).take 2 = [255, 216]
         then (⟨pkt.drop HEADER_SIZE, false, true⟩ : Frame)
         else (⟨[], false, true⟩ : Frame))))
    (hsome : ∀ c, magicOK pkt → HEADER_SIZE < pkt.length →
      (soiDiscard (pkt.drop HEADER_SIZE) (allocSlot (s.frames s.writeFrame))).data.length +
        (pkt.drop HEADER_SIZE).length ≤ BUFFER_SIZE →
      scanEOI ((soiDiscard (pkt.drop HEADER_SIZE)
        (allocSlot (s.frames s.writeFrame))).data ++ pkt.drop HEADER_SIZE) = some c →
      motive (safetyCheck (acceptFrame
        (setFrame s s.writeFrame
          { soiDiscard (pkt.drop HEADER_SIZE) (allocSlot (s.frames s.writeFrame)) with
            data := (soiDiscard (pkt.drop HEADER_SIZE)
              (allocSlot (s.frames s.writeFrame))).data ++ pkt.drop HEADER_SIZE }) c)))
    (hnone : magicOK pkt → HEADER_SIZE < pkt.length →
      (soiDiscard (pkt.drop HEADER_SIZE) (allocSlot (s.frames s.writeFrame))).data.length +
        (pkt.drop HEADER_SIZE).length ≤ BUFFER_SIZE →
      scanEOI ((soiDiscard (pkt.drop HEADER_SIZE)
        (allocSlot (s.frames s.writeFrame))).data ++ pkt.drop HEADER_SIZE) = none →
      motive (safetyCheck
        (setFrame s s.writeFrame
          { soiDiscard (pkt.drop HEADER_SIZE) (allocSlot (s.frames s.writeFrame)) with
            data := (soiDiscard (pkt.drop HEADER_SIZE)
              (allocSlot (s.frames s.writeFrame))).data ++ pkt.drop HEADER_SIZE }))) :
    motive (processData s pkt) := by
  by_cases h1 : magicOK pkt
  · by_cases h2 : HEADER_SIZE < pkt.length
    · by_cases h3 : BUFFER_SIZE <
          (soiDiscard (pkt.drop HEADER_SIZE) (allocSlot (s.frames s.writeFrame))).data.length +
            (pkt.drop HEADER_SIZE).length
      · rw [processData_overflow s pkt h1 h2 h3]
        exact hov h1 h2 h3
      · cases hscan : scanEOI ((soiDiscard (pkt.drop HEADER_SIZE)
            (allocSlot (s.frames s.writeFrame))).data ++ pkt.drop HEADER_SIZE) with
        | some c =>
          rw [processData_append_some s pkt c h1 h2 (by omega) hscan]
          exact hsome c h1 h2 (by omega) hscan
        | none =>
          rw [processData_append_none s pkt h1 h2 (by omega) hscan]
          exact hnone h1 h2 (by omega) hscan
    · rw [processData_header_only s pkt h1 (by omega)]
      exact hho h1 (by omega)
  · rw [processData_not_magic s pkt h1]
    exact hnm h1

theorem processData_streaming (s : CamState) (pkt : List Nat) :
    (processData s pkt).streaming = s.streaming := by
  refine processData_cases s pkt (fun t => t.streaming = s.streaming) ?_ ?_ ?_ ?_ ?_ <;>
    intros <;> simp

theorem processData_framesCaptured_mono (s : CamState) (pkt : List Nat) :
    s.framesCaptured ≤ (processData s pkt).framesCaptured := by
  refine processData_cases s pkt (fun t => s.framesCaptured ≤ t.framesCaptured)
    ?_ ?_ ?_ ?_ ?_ <;> intros <;> simp

theorem processData_framesDropped_mono (s : CamState) (pkt : List Nat) :
    s.framesDropped ≤ (processData s pkt).framesDropped := by
  refine processData_cases s pkt (fun t => s.framesDropped ≤ t.framesDropped)
    ?_ ?_ ?_ ?_ ?_
  · intro _; exact le_rfl
  · intro _ _; simp
  · intro _ _ _; simp
  · intro c _ _ _ _
    have h1 := acceptFrame_framesDropped_le
      (setFrame s s.writeFrame
        { soiDiscard (pkt.drop HEADER_SIZE) (allocSlot (s.frames s.writeFrame)) with
          data := (soiDiscard (pkt.drop HEADER_SIZE)
            (allocSlot (s.frames s.writeFrame))).data ++ pkt.drop HEADER_SIZE }) c
    simp only [safetyCheck_framesDropped]
    simpa using h1
  · intro _ _ _ _; simp

theorem cameraReadFrame_stats (s : CamState) (bs : Nat) :
    cameraGetStats (cameraReadFrame s bs).2.2 = cameraGetStats s := by
  simp only [cameraReadFrame, cameraGetStats]
  split_ifs <;> rfl

theorem cameraStopStreaming_stats (s : CamState) :
    cameraGetStats (cameraStopStreaming s) = cameraGetStats s := by
  unfold cameraStopStreaming
  split_ifs <;> rfl

theorem cameraStartStreaming_stats (s : CamState) (a w : Bool) (n : Nat) (t : Bool) :
    cameraGetStats (cameraStartStreaming s a w n t).2.2 = cameraGetStats s := by
  unfold cameraStartStreaming sendCommand
  split_ifs <;> rfl

/-! ### Claim C3: BufferTooSmall is retryable and non-consuming -/

/-- C3: whenever the slot at the read pointer is ready and its size exceeds
the caller buffer size, camera_read_frame returns BufferTooSmall and leaves
the whole device state (slot ready flag, size, data, and read pointer)
unchanged; a subsequent call with a buffer at least as large as the frame
returns CAMERA_SUCCESS with exactly that same frame. -/
theorem C3_buffer_too_small_retryable (s : CamState) (bsSmall bsLarge : Nat)
    (hstr : s.streaming = true)
    (hready : (s.frames s.readFrame).ready = true)
    (hsmall : bsSmall < (s.frames s.readFrame).data.length)
    (hlarge : (s.frames s.readFrame).data.length ≤ bsLarge) :
    cameraReadFrame s bsSmall = (.errorBufferSmall, [], s) ∧
    (cameraReadFrame s bsLarge).1 = .success ∧
    (cameraReadFrame s bsLarge).2.1 = (s.frames s.readFrame).data := by
  refine ⟨?_, ?_, ?_⟩ <;>
    · unfold cameraReadFrame
      rw [if_neg (by simp [hstr])]
      simp only []
      rw [if_pos hready]
      first
        | rw [if_pos hsmall]
        | (rw [if_neg (by omega)])

/-- Witness for C3 at a concrete state with a ready 3-byte frame. -/
theorem C3_witness :
    cameraReadFrame wit3State 2 = (.errorBufferSmall, [], wit3State) ∧
    (cameraReadFrame wit3State 3).1 = .success ∧
    (cameraReadFrame wit3State 3).2.1 = (wit3State.frames wit3State.readFrame).data :=
  C3_buffer_too_small_retryable wit3State 2 3 (by decide) (by decide) (by decide) (by decide)

/-! ### Claim C4: statistics across stop/start (corrected) -/

set_option maxRecDepth 40000 in
/-- C4 counterexample: after one captured frame, stopping (and restarting)
the stream leaves camera_get_stats reporting (1, 0), not (0, 0): the claim
that stop/start reset the counters to zero is false on this code. -/
theorem C4_counterexample :
    cameraGetStats (cameraStopStreaming (processData startedState (framePkt 1))) = (1, 0) ∧
    cameraGetStats (cameraStartStreaming
      (cameraStopStreaming (processData startedState (framePkt 1)))
      true true CONNECT_CMD_SIZE true).2.2 = (1, 0) ∧
    ((1 : Nat), (0 : Nat)) ≠ ((0 : Nat), (0 : Nat)) := by
  refine ⟨?_, ?_, by decide⟩ <;> decide

/-- C4 amended: frames_captured and frames_dropped never decrease during a
session, and neither camera_stop_streaming nor camera_start_streaming
modifies them (there is no reset on stop/start); they are zero only in the
freshly opened session state. -/
theorem C4_stats_monotone_not_reset (s : CamState) (pkt : List Nat) (bs : Nat)
    (altOk writeOk : Bool) (n : Nat) (threadOk : Bool) :
    (s.framesCaptured ≤ (processData s pkt).framesCaptured ∧
      s.framesDropped ≤ (processData s pkt).framesDropped) ∧
    cameraGetStats (cameraReadFrame s bs).2.2 = cameraGetStats s ∧
    cameraGetStats (cameraStopStreaming s) = cameraGetStats s ∧
    cameraGetStats (cameraStartStreaming s altOk writeOk n threadOk).2.2 = cameraGetStats s ∧
    cameraGetStats openState = (0, 0) :=
  ⟨⟨processData_framesCaptured_mono s pkt, processData_framesDropped_mono s pkt⟩,
    cameraReadFrame_stats s bs, cameraStopStreaming_stats s,
    cameraStartStreaming_stats s altOk writeOk n threadOk, rfl⟩

/-! ### Claim C5: start failure atomicity and distinct error conditions -/

/-- C5: on a non-streaming session, any failing camera_start_streaming call
leaves the session stopped (streaming = false), and the three failure kinds
(alternate setting, handshake write, thread creation) surface distinct
error conditions: the handshake write failure has a distinct status code,
and all three have distinct thread-local error messages. -/
theorem C5_start_failure_atomic_distinct (s : CamState) (hns : s.streaming = false) :
    (∀ (a w : Bool) (n : Nat) (t : Bool),
        (cameraStartStreaming s a w n t).1 ≠ .success →
        (cameraStartStreaming s a w n t).2.2.streaming = false) ∧
    (cameraStartStreaming s false true CONNECT_CMD_SIZE true).1 = .errorInitFailed ∧
    (cameraStartStreaming s false true CONNECT_CMD_SIZE true).2.1 = some .altSetting ∧
    (cameraStartStreaming s true false 0 true).1 = .errorUsbFailed ∧
    (cameraStartStreaming s true false 0 true).2.1 = some .handshakeWrite ∧
    (cameraStartStreaming s true true CONNECT_CMD_SIZE false).1 = .errorInitFailed ∧
    (cameraStartStreaming s true true CONNECT_CMD_SIZE false).2.1 = some .threadCreate ∧
    some StartFailure.altSetting ≠ some StartFailure.handshakeWrite ∧
    some StartFailure.altSetting ≠ some StartFailure.threadCreate ∧
    some StartFailure.handshakeWrite ≠ some StartFailure.threadCreate := by
  refine ⟨?_, ?_, ?_, ?_, ?_, ?_, ?_, by decide, by decide, by decide⟩
  · intro a w n t hfail
    unfold cameraStartStreaming sendCommand at hfail ⊢
    cases a <;> cases w <;> cases t <;> by_cases hn : n = CONNECT_CMD_SIZE <;>
      simp_all [hns]
  all_goals
    unfold cameraStartStreaming sendCommand
    simp [hns]

/-- Witness for C5 at the freshly opened (non-streaming) session state. -/
theorem C5_witness :
    (cameraStartStreaming openState false true CONNECT_CMD_SIZE true).1 =
      .errorInitFailed ∧
    (cameraStartStreaming openState false true CONNECT_CMD_SIZE true).2.2.streaming =
      false :=
  ⟨(C5_start_failure_atomic_distinct openState rfl).2.1,
    (C5_start_failure_atomic_distinct openState rfl).1 false true CONNECT_CMD_SIZE true
      (by decide)⟩

/-! ### Claim C10: short valid-magic packets and invalid packets are no-ops -/

/-- C10: a packet without the vendor magic leaves the state exactly
unchanged; a valid-magic packet with at most 12 bytes leaves every slot
size and ready flag, both ring indices and both counters unchanged, its
only possible effect being the lazy allocation of the write slot buffer.
The hypothesis `hun` states that an unallocated slot is empty and not
ready, which holds in every reachable state (calloc zeroes the ring). -/
theorem C10_short_or_invalid_packet_noop (s : CamState) (p q : List Nat)
    (hnm : ¬ magicOK p)
    (hq : magicOK q) (hqlen : q.length ≤ HEADER_SIZE)
    (hun : (s.frames s.writeFrame).alloc = false →
      (s.frames s.writeFrame).data = [] ∧ (s.frames s.writeFrame).ready = false) :
    processData s p = s ∧
    (∀ j, ((processData s q).frames j).data = (s.frames j).data ∧
      ((processData s q).frames j).ready = (s.frames j).ready) ∧
    (processData s q).writeFrame = s.writeFrame ∧
    (processData s q).readFrame = s.readFrame ∧
    (processData s q).framesCaptured = s.framesCaptured ∧
    (processData s q).framesDropped = s.framesDropped := by
  have hq1 := processData_header_only s q hq hqlen
  refine ⟨processData_not_magic s p hnm, ?_, by rw [hq1]; simp, by rw [hq1]; simp,
    by rw [hq1]; simp, by rw [hq1]; simp⟩
  intro j
  rw [hq1]
  by_cases hj : j = s.writeFrame
  · subst hj
    simp only [setFrame_frames_self]
    unfold allocSlot
    split_ifs with h
    · exact ⟨rfl, rfl⟩
    · have h2 := hun (by simpa using h)
      rw [h2.1, h2.2]
      exact ⟨rfl, rfl⟩
  · rw [setFrame_frames_other _ _ _ _ hj]
    exact ⟨rfl, rfl⟩

/-- Witness for C10: an invalid 3-byte packet and the bare 12-byte header
applied to the freshly opened state. -/
theorem C10_witness :
    ¬ magicOK [0, 1, 2] ∧ magicOK hdr12 ∧
    processData openState [0, 1, 2] = openState ∧
    (processData openState hdr12).framesCaptured = openState.framesCaptured :=
  ⟨by decide, by decide,
    (C10_short_or_invalid_packet_noop openState [0, 1, 2] hdr12 (by decide) (by decide)
      (by decide) (by decide)).1,
    (C10_short_or_invalid_packet_noop openState [0, 1, 2] hdr12 (by decide) (by decide)
      (by decide) (by decide)).2.2.2.2.1⟩

/-! ### Theorems: slot-level characterization of the accept and safety steps -/

theorem nextWrite_ne (wi : Nat) : (wi + 1) % MAX_FRAMES ≠ wi := by
  unfold MAX_FRAMES; omega

theorem soiDiscard_ready (p : List Nat) (fr : Frame) :
    (soiDiscard p fr).ready = fr.ready := by
  unfold soiDiscard; split_ifs <;> rfl

theorem soiDiscard_alloc (p : List Nat) (fr : Frame) :
    (soiDiscard p fr).alloc = fr.alloc := by
  unfold soiDiscard; split_ifs <;> rfl

@[simp] theorem allocSlot_alloc (fr : Frame) : (allocSlot fr).alloc = true := by
  unfold allocSlot; split_ifs with h <;> simp [h]

theorem safetyCheck_frames_full (t : CamState) (j : Nat) :
    (safetyCheck t).frames j =
      if j = t.writeFrame ∧ MAX_JPEG_SIZE < (t.frames t.writeFrame).data.length ∧
          (t.frames t.writeFrame).ready = false
      then { t.frames t.writeFrame with data := [] }
      else t.frames j := by
  unfold safetyCheck
  split_ifs with h1 h2 h3
  · rw [h2.1]; exact setFrame_frames_self ..
  · exact setFrame_frames_other _ _ _ _ (fun hj => h2 ⟨hj, h1⟩)
  · exact absurd h3.2 h1
  · rfl

/-- Where each slot ends up after acceptFrame: the next write slot is
re-initialized (seeded with an SOI-leading leftover), the accepted slot
keeps the frame prefix and is marked ready, all other slots are untouched. -/
theorem acceptFrame_frames_full (s : CamState) (c : Nat) (j : Nat) :
    (acceptFrame s c).frames j =
      if j = (s.writeFrame + 1) % MAX_FRAMES then
        { data :=
            if (0 < ((s.frames s.writeFrame).data.drop c).length ∧
                  ((s.frames s.writeFrame).data.drop c).length < BUFFER_SIZE) ∧
                2 ≤ ((s.frames s.writeFrame).data.drop c).length then
              if ((s.frames s.writeFrame).data.drop c).take 2 = [255, 216] then
                (s.frames s.writeFrame).data.drop c
              else []
            else [],
          ready := false,
          alloc := true }
      else if j = s.writeFrame then
        { s.frames s.writeFrame with
          data := (s.frames s.writeFrame).data.take c,
          ready := true }
      else s.frames j := by
  simp only [acceptFrame]
  by_cases hn : j = (s.writeFrame + 1) % MAX_FRAMES
  · rw [hn, if_pos rfl, setFrame_frames_self]
    congr 1
    exact allocSlot_alloc _
  · rw [if_neg hn, setFrame_frames_other _ _ _ _ hn]
    by_cases hw : j = s.writeFrame
    · rw [hw, if_pos rfl]
      exact setFrame_frames_self ..
    · rw [if_neg hw]
      exact setFrame_frames_other _ _ _ _ hw

theorem acceptFrame_readFrame (s : CamState) (c : Nat) :
    (acceptFrame s c).readFrame =
      if (s.writeFrame + 1) % MAX_FRAMES = s.readFrame ∧
          ((setFrame s s.writeFrame
            { s.frames s.writeFrame with
              data := (s.frames s.writeFrame).data.take c,
              ready := true }).frames s.readFrame).ready = true then
        (s.readFrame + 1) % MAX_FRAMES
      else s.readFrame := rfl

theorem acceptFrame_framesDropped (s : CamState) (c : Nat) :
    (acceptFrame s c).framesDropped =
      if (s.writeFrame + 1) % MAX_FRAMES = s.readFrame ∧
          ((setFrame s s.writeFrame
            { s.frames s.writeFrame with
              data := (s.frames s.writeFrame).data.take c,
              ready := true }).frames s.readFrame).ready = true then
        s.framesDropped + 1
      else s.framesDropped := rfl

/-- After an accepted frame (and the trailing safety valve), the slot that
held the frame contains exactly the first `C` accumulated bytes and is
marked ready. -/
theorem accepted_slot_after (X : CamState) (C : Nat) :
    (safetyCheck (acceptFrame X C)).frames X.writeFrame =
      { X.frames X.writeFrame with
        data := (X.frames X.writeFrame).data.take C,
        ready := true } := by
  rw [safetyCheck_frames_full, if_neg, acceptFrame_frames_full, if_neg
    (fun h => nextWrite_ne X.writeFrame h.symm), if_pos rfl]
  intro hc
  rw [acceptFrame_writeFrame] at hc
  exact nextWrite_ne X.writeFrame hc.1.symm

/-- The safety valve applied to a freshly re-initialized (never ready)
write slot: it wipes the slot data exactly when it exceeds MAX_JPEG_SIZE. -/
theorem safetyCheck_clean_slot (t : CamState) (nd : List Nat)
    (h : t.frames t.writeFrame = ⟨nd, false, true⟩) :
    (safetyCheck t).frames t.writeFrame =
      ⟨if MAX_JPEG_SIZE < nd.length then [] else nd, false, true⟩ := by
  rw [safetyCheck_frames_full, h]
  by_cases hsz : MAX_JPEG_SIZE < nd.length
  · rw [if_pos ⟨rfl, hsz, rfl⟩, if_pos hsz]
  · rw [if_neg (fun hc => hsz hc.2.1), if_neg hsz]

/-- After an accepted frame, the new write slot holds the leftover bytes
exactly when they start with SOI and survive the safety valve; it is never
ready. -/
theorem new_write_slot_after (X : CamState) (C : Nat) :
    (safetyCheck (acceptFrame X C)).frames ((X.writeFrame + 1) % MAX_FRAMES) =
      ⟨if MAX_JPEG_SIZE <
          (if (0 < ((X.frames X.writeFrame).data.drop C).length ∧
                ((X.frames X.writeFrame).data.drop C).length < BUFFER_SIZE) ∧
              2 ≤ ((X.frames X.writeFrame).data.drop C).length then
            if ((X.frames X.writeFrame).data.drop C).take 2 = [255, 216] then
              (X.frames X.writeFrame).data.drop C
            else []
          else []).length then []
        else
          if (0 < ((X.frames X.writeFrame).data.drop C).length ∧
                ((X.frames X.writeFrame).data.drop C).length < BUFFER_SIZE) ∧
              2 ≤ ((X.frames X.writeFrame).data.drop C).length then
            if ((X.frames X.writeFrame).data.drop C).take 2 = [255, 216] then
              (X.frames X.writeFrame).data.drop C
            else []
          else [],
        false, true⟩ := by
  have hw : (acceptFrame X C).writeFrame = (X.writeFrame + 1) % MAX_FRAMES :=
    acceptFrame_writeFrame X C
  have hslot : (acceptFrame X C).frames ((X.writeFrame + 1) % MAX_FRAMES) =
      ⟨if (0 < ((X.frames X.writeFrame).data.drop C).length ∧
            ((X.frames X.writeFrame).data.drop C).length < BUFFER_SIZE) ∧
          2 ≤ ((X.frames X.writeFrame).data.drop C).length then
        if ((X.frames X.writeFrame).data.drop C).take 2 = [255, 216] then
          (X.frames X.writeFrame).data.drop C
        else []
      else [], false, true⟩ := by
    rw [acceptFrame_frames_full, if_pos rfl]
  have hfin := safetyCheck_clean_slot (acceptFrame X C) _ (by rw [hw, hslot])
  rw [hw] at hfin
  exact hfin

/-- Composite path lemma: on an accepted scan at complete size `c`, the
slot that was the write slot ends the call holding the first `c` appended
bytes, marked ready. -/
theorem processData_accepted_slot (s : CamState) (pkt : List Nat) (c : Nat)
    (hm : magicOK pkt) (hlen : HEADER_SIZE < pkt.length)
    (hov : (soiDiscard (pkt.drop HEADER_SIZE) (allocSlot (s.frames s.writeFrame))).data.length +
        (pkt.drop HEADER_SIZE).length ≤ BUFFER_SIZE)
    (hscan : scanEOI (appendedData s pkt) = some c) :
    (processData s pkt).frames s.writeFrame =
      ⟨(appendedData s pkt).take c, true,
        (soiDiscard (pkt.drop HEADER_SIZE) (allocSlot (s.frames s.writeFrame))).alloc⟩ := by
  rw [processData_append_some s pkt c hm hlen hov hscan]
  have key := accepted_slot_after (setFrame s s.writeFrame
    { soiDiscard (pkt.drop HEADER_SIZE) (allocSlot (s.frames s.writeFrame)) with
      data := (soiDiscard (pkt.drop HEADER_SIZE)
        (allocSlot (s.frames s.writeFrame))).data ++ pkt.drop HEADER_SIZE }) c
  simp only [setFrame_writeFrame, setFrame_frames_self] at key
  rw [key]
  rfl

/-- Composite path lemma: on an accepted scan at complete size `c`, the new
write slot ends the call re-initialized, seeded by the leftover bytes as
filtered by the SOI check and the trailing safety valve. -/
theorem processData_new_slot (s : CamState) (pkt : List Nat) (c : Nat)
    (hm : magicOK pkt) (hlen : HEADER_SIZE < pkt.length)
    (hov : (soiDiscard (pkt.drop HEADER_SIZE) (allocSlot (s.frames s.writeFrame))).data.length +
        (pkt.drop HEADER_SIZE).length ≤ BUFFER_SIZE)
    (hscan : scanEOI (appendedData s pkt) = some c) :
    (processData s pkt).frames ((s.writeFrame + 1) % MAX_FRAMES) =
      ⟨if MAX_JPEG_SIZE <
          (if (0 < ((appendedData s pkt).drop c).length ∧
                ((appendedData s pkt).drop c).length < BUFFER_SIZE) ∧
              2 ≤ ((appendedData s pkt).drop c).length then
            if ((appendedData s pkt).drop c).take 2 = [255, 216] then
              (appendedData s pkt).drop c
            else []
          else []).length then []
        else
          if (0 < ((appendedData s pkt).drop c).length ∧
                ((appendedData s pkt).drop c).length < BUFFER_SIZE) ∧
              2 ≤ ((appendedData s pkt).drop c).length then
            if ((appendedData s pkt).drop c).take 2 = [255, 216] then
              (appendedData s pkt).drop c
            else []
          else [],
        false, true⟩ := by
  rw [processData_append_some s pkt c hm hlen hov hscan]
  have key := new_write_slot_after (setFrame s s.writeFrame
    { soiDiscard (pkt.drop HEADER_SIZE) (allocSlot (s.frames s.writeFrame)) with
      data := (soiDiscard (pkt.drop HEADER_SIZE)
        (allocSlot (s.frames s.writeFrame))).data ++ pkt.drop HEADER_SIZE }) c
  simp only [setFrame_writeFrame, setFrame_frames_self] at key
  rw [key]
  rfl

/-! ### Claim C6: acceptance at the first qualifying EOI occurrence -/

set_option maxRecDepth 40000 in
/-- C6 counterexample: in a single packet whose payload holds an EOI pair at
offsets 2-3 (so the first EOI occurrence yields a candidate of length 4,
which is below MIN_JPEG_SIZE) followed by filler and a final EOI pair, the
scan does not stop at the first occurrence: process_data accepts a frame of
1002 bytes spanning past it, contradicting the claim that no frame spanning
past the first EOI occurrence is accepted in that step. -/
theorem C6_counterexample :
    (c6pkt.drop HEADER_SIZE).getD 2 0 = 255 ∧ (c6pkt.drop HEADER_SIZE).getD 3 0 = 217 ∧
    ¬ MIN_JPEG_SIZE ≤ 3 + 1 ∧
    ((processData startedState c6pkt).frames 0).ready = true ∧
    ((processData startedState c6pkt).frames 0).data.length = 1002 := by
  refine ⟨by decide, by decide, by decide, ?_, ?_⟩ <;> decide

/-- C6 amended: after appending a payload (non-overflow path), the slot is
scanned from its first byte for EOI pairs; the frame is accepted at the
FIRST occurrence that passes the minimum-size and SOI checks (occurrences
failing the checks are skipped, and the scan continues past them); if no
occurrence passes, no frame is accepted by the call. -/
theorem C6_first_qualifying_eoi_accepted (s : CamState) (pkt : List Nat)
    (hm : magicOK pkt) (hlen : HEADER_SIZE < pkt.length)
    (hov : (soiDiscard (pkt.drop HEADER_SIZE) (allocSlot (s.frames s.writeFrame))).data.length +
        (pkt.drop HEADER_SIZE).length ≤ BUFFER_SIZE)
    (hrdy : (allocSlot (s.frames s.writeFrame)).ready = false) :
    ((∃ i, eoiCond (appendedData s pkt) i) →
      ∃ i, eoiCond (appendedData s pkt) i ∧ (∀ j, j < i → ¬ eoiCond (appendedData s pkt) j) ∧
        ((processData s pkt).frames s.writeFrame).ready = true ∧
        ((processData s pkt).frames s.writeFrame).data = (appendedData s pkt).take (i + 1)) ∧
    ((∀ i, ¬ eoiCond (appendedData s pkt) i) →
      ((processData s pkt).frames s.writeFrame).ready = false ∧
      (processData s pkt).framesCaptured = s.framesCaptured) := by
  constructor
  · intro hex
    have hi := Nat.find_spec hex
    have hmin : ∀ j, j < Nat.find hex → ¬ eoiCond (appendedData s pkt) j :=
      fun j hj => Nat.find_min hex hj
    have hscan : scanEOI (appendedData s pkt) = some (Nat.find hex + 1) :=
      scanEOI_eq_some hi hmin
    refine ⟨Nat.find hex, hi, hmin, ?_⟩
    rw [processData_append_some s pkt (Nat.find hex + 1) hm hlen hov hscan]
    have key := accepted_slot_after (setFrame s s.writeFrame
      { soiDiscard (pkt.drop HEADER_SIZE) (allocSlot (s.frames s.writeFrame)) with
        data := (soiDiscard (pkt.drop HEADER_SIZE)
          (allocSlot (s.frames s.writeFrame))).data ++ pkt.drop HEADER_SIZE })
      (Nat.find hex + 1)
    simp only [setFrame_writeFrame] at key
    rw [key, setFrame_frames_self]
    exact ⟨rfl, rfl⟩
  · intro hall
    have hscan : scanEOI (appendedData s pkt) = none := scanEOI_eq_none hall
    rw [processData_append_none s pkt hm hlen hov hscan]
    have hfr : (soiDiscard (pkt.drop HEADER_SIZE)
        (allocSlot (s.frames s.writeFrame))).ready = false := by
      rw [soiDiscard_ready]; exact hrdy
    constructor
    · rw [safetyCheck_frames_full]
      split_ifs with h1
      · simpa using hfr
      · simpa [setFrame_frames_self] using hfr
    · simp

set_option maxRecDepth 40000 in
/-- Witness for C6 applied to the single-packet frame input. -/
theorem C6_witness :
    ∃ i, eoiCond (appendedData startedState (framePkt 1)) i ∧
      (∀ j, j < i → ¬ eoiCond (appendedData startedState (framePkt 1)) j) ∧
      ((processData startedState (framePkt 1)).frames startedState.writeFrame).ready = true ∧
      ((processData startedState (framePkt 1)).frames startedState.writeFrame).data =
        (appendedData startedState (framePkt 1)).take (i + 1) :=
  (C6_first_qualifying_eoi_accepted startedState (framePkt 1) (by decide) (by decide)
      (by decide) (by decide)).1 ⟨999, by decide⟩

/-! ### Claim C7: overflow reset and size bounds -/

/-- Slots other than the accepted one and the new write slot are untouched
by the accept step and the trailing safety valve. -/
theorem untouched_slot_after (X : CamState) (C : Nat) (j : Nat)
    (h1 : j ≠ X.writeFrame) (h2 : j ≠ (X.writeFrame + 1) % MAX_FRAMES) :
    (safetyCheck (acceptFrame X C)).frames j = X.frames j := by
  have hne : ¬ (j = (acceptFrame X C).writeFrame ∧
      MAX_JPEG_SIZE < ((acceptFrame X C).frames (acceptFrame X C).writeFrame).data.length ∧
      ((acceptFrame X C).frames (acceptFrame X C).writeFrame).ready = false) := by
    intro hc
    exact h2 (by rw [← acceptFrame_writeFrame X C]; exact hc.1)
  rw [safetyCheck_frames_full, if_neg hne, acceptFrame_frames_full, if_neg h2, if_neg h1]

/-- C7: every process_data call on a packet no longer than the transport
buffer keeps every slot size at most the slot capacity BUFFER_SIZE (no
buffer overrun), and in the overflow branch the slot is reset to empty,
then re-seeded with the payload exactly when the payload starts with the
SOI marker. -/
theorem C7_overflow_resets_and_bounds (s : CamState) (pkt : List Nat)
    (hpkt : pkt.length ≤ BUFFER_SIZE)
    (hb : ∀ j, j < MAX_FRAMES → (s.frames j).data.length ≤ BUFFER_SIZE) :
    (∀ j, j < MAX_FRAMES → ((processData s pkt).frames j).data.length ≤ BUFFER_SIZE) ∧
    (magicOK pkt → HEADER_SIZE < pkt.length →
      BUFFER_SIZE <
        (soiDiscard (pkt.drop HEADER_SIZE) (allocSlot (s.frames s.writeFrame))).data.length +
          (pkt.drop HEADER_SIZE).length →
      ((processData s pkt).frames s.writeFrame).ready = false ∧
      ((processData s pkt).frames s.writeFrame).data =
        (if (pkt.drop HEADER_SIZE).take 2 = [255, 216] then pkt.drop HEADER_SIZE else [])) := by
  constructor
  · refine processData_cases s pkt
      (fun t => ∀ j, j < MAX_FRAMES → (t.frames j).data.length ≤ BUFFER_SIZE) ?_ ?_ ?_ ?_ ?_
    · intro _; exact hb
    · intro _ _ j hj
      by_cases hw : j = s.writeFrame
      · subst hw
        rw [setFrame_frames_self]
        unfold allocSlot
        split_ifs
        · exact hb _ hj
        · simp [BUFFER_SIZE]
      · rw [setFrame_frames_other _ _ _ _ hw]
        exact hb j hj
    · intro _ _ _ j hj
      by_cases hw : j = s.writeFrame
      · subst hw
        rw [setFrame_frames_self]
        split_ifs
        · simp only [List.length_drop]
          omega
        · simp [BUFFER_SIZE]
      · rw [setFrame_frames_other _ _ _ _ hw]
        exact hb j hj
    · intro c _ _ hov _ j hj
      have hdl : ((soiDiscard (pkt.drop HEADER_SIZE)
          (allocSlot (s.frames s.writeFrame))).data ++ pkt.drop HEADER_SIZE).length ≤
          BUFFER_SIZE := by
        rw [List.length_append]; exact hov
      by_cases hnw : j = (s.writeFrame + 1) % MAX_FRAMES
      · subst hnw
        have key := new_write_slot_after (setFrame s s.writeFrame
          { soiDiscard (pkt.drop HEADER_SIZE) (allocSlot (s.frames s.writeFrame)) with
            data := (soiDiscard (pkt.drop HEADER_SIZE)
              (allocSlot (s.frames s.writeFrame))).data ++ pkt.drop HEADER_SIZE }) c
        simp only [setFrame_writeFrame, setFrame_frames_self] at key
        rw [key]
        have hlo : (List.drop c ((soiDiscard (pkt.drop HEADER_SIZE)
            (allocSlot (s.frames s.writeFrame))).data ++
              pkt.drop HEADER_SIZE)).length ≤ BUFFER_SIZE := by
          rw [List.length_drop, List.length_append]
          omega
        split_ifs <;> simp only [List.length_nil] <;> omega
      · by_cases hw : j = s.writeFrame
        · subst hw
          have key := accepted_slot_after (setFrame s s.writeFrame
            { soiDiscard (pkt.drop HEADER_SIZE) (allocSlot (s.frames s.writeFrame)) with
              data := (soiDiscard (pkt.drop HEADER_SIZE)
                (allocSlot (s.frames s.writeFrame))).data ++ pkt.drop HEADER_SIZE }) c
          simp only [setFrame_writeFrame, setFrame_frames_self] at key
          rw [key]
          simp only [List.length_take]
          omega
        · have key := untouched_slot_after (setFrame s s.writeFrame
            { soiDiscard (pkt.drop HEADER_SIZE) (allocSlot (s.frames s.writeFrame)) with
              data := (soiDiscard (pkt.drop HEADER_SIZE)
                (allocSlot (s.frames s.writeFrame))).data ++ pkt.drop HEADER_SIZE }) c j
            (by simpa using hw) (by simpa using hnw)
          simp only [setFrame_writeFrame] at key
          rw [key, setFrame_frames_other _ _ _ _ hw]
          exact hb j hj
    · intro _ _ hov _ j hj
      have hdl : ((soiDiscard (pkt.drop HEADER_SIZE)
          (allocSlot (s.frames s.writeFrame))).data ++ pkt.drop HEADER_SIZE).length ≤
          BUFFER_SIZE := by
        rw [List.length_append]; exact hov
      rw [safetyCheck_frames_full]
      split_ifs with hc
      · simp
      · by_cases hw : j = s.writeFrame
        · subst hw
          rw [setFrame_frames_self]
          exact hdl
        · rw [setFrame_frames_other _ _ _ _ hw]
          exact hb j hj
  · intro hm hlen hov
    rw [processData_overflow s pkt hm hlen hov, setFrame_frames_self]
    by_cases h1 : (pkt.drop HEADER_SIZE).take 2 = [255, 216]
    · have h2 : 2 ≤ (pkt.drop HEADER_SIZE).length := by
        have := congrArg List.length h1
        simp only [List.length_take, List.length_cons, List.length_nil] at this
        omega
      rw [if_pos ⟨h2, h1⟩, if_pos h1]
      exact ⟨rfl, rfl⟩
    · rw [if_neg (fun hc => h1 hc.2), if_neg h1]
      exact ⟨rfl, rfl⟩

set_option maxRecDepth 40000 in
/-- Witness for C7: all slot sizes stay within capacity after a concrete
frame packet on the freshly opened state. -/
theorem C7_witness :
    (framePkt 1).length ≤ BUFFER_SIZE ∧
    (∀ j, j < MAX_FRAMES → ((openState).frames j).data.length ≤ BUFFER_SIZE) ∧
    ((processData openState (framePkt 1)).frames 0).data.length ≤ BUFFER_SIZE :=
  ⟨by decide, by decide,
   (C7_overflow_resets_and_bounds openState (framePkt 1) (by decide) (by decide)).1
     0 (by decide)⟩

/-! ### Claim C8: leftover filtering (corrected) -/

/-- The net effect of the leftover-seeding conditionals followed by the
safety valve, as a pure function of the leftover bytes: the leftover
survives exactly when it starts with SOI and is no longer than
MAX_JPEG_SIZE. -/
theorem leftover_filter_eq (lo : List Nat) (hlt : lo.length < BUFFER_SIZE) :
    (if MAX_JPEG_SIZE <
        (if (0 < lo.length ∧ lo.length < BUFFER_SIZE) ∧ 2 ≤ lo.length then
          if lo.take 2 = [255, 216] then lo else []
        else []).length then []
      else
        if (0 < lo.length ∧ lo.length < BUFFER_SIZE) ∧ 2 ≤ lo.length then
          if lo.take 2 = [255, 216] then lo else []
        else []) =
      (if lo.take 2 = [255, 216] ∧ lo.length ≤ MAX_JPEG_SIZE then lo else []) := by
  by_cases ht : lo.take 2 = [255, 216]
  · have hL2 : 2 ≤ lo.length := by
      have := congrArg List.length ht
      simp only [List.length_take, List.length_cons, List.length_nil] at this
      omega
    have hinner : (if (0 < lo.length ∧ lo.length < BUFFER_SIZE) ∧ 2 ≤ lo.length then
        if lo.take 2 = [255, 216] then lo else [] else []) = lo := by
      rw [if_pos ⟨⟨by omega, hlt⟩, hL2⟩, if_pos ht]
    rw [hinner]
    by_cases hLm : lo.length ≤ MAX_JPEG_SIZE
    · rw [if_neg (by omega), if_pos ⟨ht, hLm⟩]
    · rw [if_pos (by omega), if_neg (fun hcc => hLm hcc.2)]
  · have h1 : (if (0 < lo.length ∧ lo.length < BUFFER_SIZE) ∧ 2 ≤ lo.length then
        if lo.take 2 = [255, 216] then lo else [] else []) = [] := by
      split_ifs <;> simp_all
    rw [h1]
    rw [if_neg (show ¬ MAX_JPEG_SIZE < ([] : List Nat).length by simp)]
    rw [if_neg (fun hcc => ht hcc.1)]

/-- C8 amended: when a frame is accepted at complete size `c`, the leftover
bytes after the EOI become the initial content of the next write slot
exactly when they start with the SOI marker AND their length is at most
MAX_JPEG_SIZE (longer SOI-leading leftovers are first copied and then wiped
by the too-large safety valve in the same call); otherwise the next write
slot starts empty. The slot is never left ready. -/
theorem C8_leftover_filtering (s : CamState) (pkt : List Nat) (c : Nat)
    (hm : magicOK pkt) (hlen : HEADER_SIZE < pkt.length)
    (hov : (soiDiscard (pkt.drop HEADER_SIZE) (allocSlot (s.frames s.writeFrame))).data.length +
        (pkt.drop HEADER_SIZE).length ≤ BUFFER_SIZE)
    (hscan : scanEOI (appendedData s pkt) = some c) :
    (processData s pkt).frames ((s.writeFrame + 1) % MAX_FRAMES) =
      ⟨if ((appendedData s pkt).drop c).take 2 = [255, 216] ∧
          ((appendedData s pkt).drop c).length ≤ MAX_JPEG_SIZE then
        (appendedData s pkt).drop c
      else [], false, true⟩ := by
  obtain ⟨m, hc1, -⟩ := scanEOI_sound hscan
  rw [processData_new_slot s pkt c hm hlen hov hscan]
  congr 1
  apply leftover_filter_eq
  have hdl : (appendedData s pkt).length ≤ BUFFER_SIZE := by
    unfold appendedData
    rw [List.length_append]
    exact hov
  rw [List.length_drop]
  simp only [BUFFER_SIZE] at hdl ⊢
  omega

set_option maxRecDepth 40000 in
/-- Witness for C8: a packet carrying a complete frame plus a short
SOI-leading leftover; the re-initialized next write slot is not ready. -/
theorem C8_witness :
    ((processData wit3State (hdr12 ++ (jpegF 2 ++ [255, 216, 0]))).frames
        ((wit3State.writeFrame + 1) % MAX_FRAMES)).ready = false :=
  congrArg Frame.ready
    (C8_leftover_filtering wit3State (hdr12 ++ (jpegF 2 ++ [255, 216, 0])) 1000
      (by decide) (by decide) (by decide) (by decide))

set_option maxRecDepth 40000 in
/-- C8 counterexample: a packet carrying a complete 1000-byte frame followed
by a 61441-byte leftover that starts with the SOI marker. The frame is
accepted (write slot s.writeFrame = slot 0, next write slot = slot 1), yet
the next write slot ends the call EMPTY: the leftover is seeded and then
wiped by the too-large safety valve, contradicting the claim that an
SOI-leading leftover always becomes the next slot content. -/
theorem C8_counterexample :
    ((c8pkt.drop HEADER_SIZE).drop 1000).take 2 = [255, 216] ∧
    0 < ((c8pkt.drop HEADER_SIZE).drop 1000).length ∧
    ((processData startedState c8pkt).frames startedState.writeFrame).ready = true ∧
    ((processData startedState c8pkt).frames startedState.writeFrame).data = jpegF 1 ∧
    ((processData startedState c8pkt).frames
      ((startedState.writeFrame + 1) % MAX_FRAMES)).data = [] := by
  have hj1len : (jpegF 1).length = 1000 := by
    simp [jpegF]
  have hlolen : ([255, 216] ++ List.replicate 61439 0).length = 61441 := by
    rw [List.length_append, List.length_replicate]
    rfl
  have hdrop : c8pkt.drop HEADER_SIZE =
      jpegF 1 ++ ([255, 216] ++ List.replicate 61439 0) := by
    show (hdr12 ++ (jpegF 1 ++ ([255, 216] ++ List.replicate 61439 0))).drop HEADER_SIZE = _
    rw [show HEADER_SIZE = hdr12.length from rfl]
    exact List.drop_left _ _
  have hPlen : (c8pkt.drop HEADER_SIZE).length = 62441 := by
    rw [hdrop, List.length_append, hj1len, hlolen]
  have hsd : soiDiscard (c8pkt.drop HEADER_SIZE)
      (allocSlot (startedState.frames startedState.writeFrame)) = ⟨[], false, true⟩ := by
    rw [show allocSlot (startedState.frames startedState.writeFrame) =
      (⟨[], false, true⟩ : Frame) from rfl]
    unfold soiDiscard
    rw [if_neg (fun hc => absurd hc.2.2.1 (by simp))]
  have hP2 : (c8pkt.drop HEADER_SIZE).take 2 = [255, 216] := by
    rw [hdrop]
    rfl
  have hAPP : appendedData startedState c8pkt =
      jpegF 1 ++ ([255, 216] ++ List.replicate 61439 0) := by
    unfold appendedData
    rw [hsd]
    show ([] : List Nat) ++ c8pkt.drop HEADER_SIZE = _
    rw [List.nil_append, hdrop]
  have hdropLo : (jpegF 1 ++ ([255, 216] ++ List.replicate 61439 0)).drop 1000 =
      [255, 216] ++ List.replicate 61439 0 := by
    rw [show (1000 : Nat) = (jpegF 1).length from hj1len.symm]
    exact List.drop_left _ _
  have hscan : scanEOI (appendedData startedState c8pkt) = some 1000 := by
    rw [hAPP, ← hdrop]
    have hcond : eoiCond (c8pkt.drop HEADER_SIZE) 999 := by
      refine ⟨by omega, by rw [hPlen]; omega, ?_, ?_, by decide, hP2⟩
      · rw [hdrop, List.getD_append _ _ _ _ (by rw [hj1len]; omega)]
        decide
      · rw [hdrop, List.getD_append _ _ _ _ (by rw [hj1len]; omega)]
        decide
    exact scanEOI_eq_some hcond
      (fun j hj hc => absurd hc.2.2.2.2.1 (by simp only [MIN_JPEG_SIZE]; omega))
  have hclen : c8pkt.length = 62453 := by
    show (hdr12 ++ (jpegF 1 ++ ([255, 216] ++ List.replicate 61439 0))).length = 62453
    rw [List.length_append, List.length_append, hj1len, hlolen]
    rfl
  have hm : magicOK c8pkt := ⟨by rw [hclen]; omega, rfl, rfl, rfl⟩
  have hlen : HEADER_SIZE < c8pkt.length := by
    rw [hclen]
    decide
  have hov : (soiDiscard (c8pkt.drop HEADER_SIZE)
      (allocSlot (startedState.frames startedState.writeFrame))).data.length +
        (c8pkt.drop HEADER_SIZE).length ≤ BUFFER_SIZE := by
    rw [hsd, hPlen]
    decide
  refine ⟨?_, ?_, ?_, ?_, ?_⟩
  · rw [hdrop, hdropLo]
    rfl
  · rw [hdrop, hdropLo, hlolen]
    omega
  · exact congrArg Frame.ready
      (processData_accepted_slot startedState c8pkt 1000 hm hlen hov hscan)
  · rw [processData_accepted_slot startedState c8pkt 1000 hm hlen hov hscan, Frame_data_mk]
    rw [hAPP, show (1000 : Nat) = (jpegF 1).length from hj1len.symm, List.take_left]
  · have hns := processData_new_slot startedState c8pkt 1000 hm hlen hov hscan
    rw [hns, hAPP, hdropLo, hlolen]
    rw [if_pos (And.intro (And.intro (by omega) (by decide)) (by omega))]
    have hcond : List.take 2 ([255, 216] ++ List.replicate 61439 0) = [255, 216] := by decide
    rw [if_pos hcond]
    rw [List.length_append, List.length_replicate]
    rw [if_pos (by decide : MAX_JPEG_SIZE < [255, 216].length + 61439)]


/-! ### Claim C9: the ready-slot well-formedness invariant -/

theorem take_two_of_drop (l : List Nat) (i : Nat) (h : i + 1 < l.length) :
    (l.drop i).take 2 = [l.getD i 0, l.getD (i + 1) 0] := by
  rw [List.drop_eq_getElem_cons (show i < l.length by omega),
      List.drop_eq_getElem_cons h,
      List.getD_eq_getElem l 0 (show i < l.length by omega),
      List.getD_eq_getElem l 0 h]
  rfl

/-- A buffer accepted by the EOI scan at index `m` is cut to a well-formed
frame: SOI first, EOI last, plausible length, within the slot capacity. -/
theorem jpegWF_take_of_eoiCond (l : List Nat) (m : Nat)
    (hlen : l.length ≤ BUFFER_SIZE) (hc : eoiCond l m) :
    jpegWF (l.take (m + 1)) := by
  obtain ⟨h1, h2, h3, h4, h5, h6⟩ := hc
  have hma : m + 1 ≤ l.length := h2
  have h5n : 1000 ≤ m + 1 := h5
  have htl : (l.take (m + 1)).length = m + 1 := by
    rw [List.length_take]
    omega
  refine ⟨?_, ?_, ?_, ?_⟩
  · rw [List.take_take, show min 2 (m + 1) = 2 by omega]
    exact h6
  · rw [htl, show m + 1 - 2 = m - 1 by omega, List.drop_take,
      show m + 1 - (m - 1) = 2 by omega,
      take_two_of_drop l (m - 1) (by omega),
      show m - 1 + 1 = m by omega, h3, h4]
  · rw [htl]
    exact h5
  · rw [htl]
    omega

theorem allocSlot_cases (fr : Frame) :
    allocSlot fr = fr ∨ allocSlot fr = ⟨[], false, true⟩ := by
  unfold allocSlot
  split_ifs
  · exact Or.inl rfl
  · exact Or.inr rfl

theorem allocSlot_ready_false (fr : Frame) (h : fr.ready = false) :
    (allocSlot fr).ready = false := by
  unfold allocSlot
  split_ifs
  · exact h
  · rfl

theorem allocSlot_data_le (fr : Frame) :
    (allocSlot fr).data.length ≤ fr.data.length := by
  unfold allocSlot
  split_ifs
  · exact le_rfl
  · exact Nat.zero_le _

/-- Accepting a frame at a size certified by the EOI scan condition, followed
by the safety valve, preserves the ring invariant. -/
theorem acceptFrame_safety_InvWF (X : CamState) (m : Nat)
    (hInv : InvWF X) (hE : eoiCond (X.frames X.writeFrame).data m) :
    InvWF (safetyCheck (acceptFrame X (m + 1))) := by
  obtain ⟨hWF, hwr, hwlt, hrlt, hsz⟩ := hInv
  have hllen : (X.frames X.writeFrame).data.length ≤ BUFFER_SIZE := hsz _ hwlt
  have hacc := accepted_slot_after X (m + 1)
  have hnew := new_write_slot_after X (m + 1)
  have hTw : (safetyCheck (acceptFrame X (m + 1))).writeFrame =
      (X.writeFrame + 1) % MAX_FRAMES := by
    rw [safetyCheck_writeFrame, acceptFrame_writeFrame]
  refine ⟨?_, ?_, ?_, ?_, ?_⟩
  · intro j hj
    by_cases hjn : j = (X.writeFrame + 1) % MAX_FRAMES
    · rw [hjn, hnew]
      exact fun hr => Bool.noConfusion hr
    · by_cases hjw : j = X.writeFrame
      · rw [hjw, hacc]
        exact fun _ => jpegWF_take_of_eoiCond _ m hllen hE
      · rw [untouched_slot_after X (m + 1) j hjw hjn]
        exact hWF j hj
  · rw [hTw, hnew]
  · rw [hTw]
    exact Nat.mod_lt _ (by decide)
  · rw [safetyCheck_readFrame, acceptFrame_readFrame]
    split_ifs
    · exact Nat.mod_lt _ (by decide)
    · exact hrlt
  · intro j hj
    by_cases hjn : j = (X.writeFrame + 1) % MAX_FRAMES
    · rw [hjn, hnew, Frame_data_mk]
      split_ifs <;>
        first
          | exact Nat.zero_le _
          | (rw [List.length_drop]; omega)
    · by_cases hjw : j = X.writeFrame
      · rw [hjw, hacc]
        show ((X.frames X.writeFrame).data.take (m + 1)).length ≤ BUFFER_SIZE
        rw [List.length_take]
        omega
      · rw [untouched_slot_after X (m + 1) j hjw hjn]
        exact hsz j hj

/-- process_data preserves the ring invariant for packets no longer than the
transport buffer. -/
theorem processData_InvWF (s : CamState) (pkt : List Nat)
    (hpkt : pkt.length ≤ BUFFER_SIZE) (hInv : InvWF s) :
    InvWF (processData s pkt) := by
  obtain ⟨hWF, hwr, hwlt, hrlt, hsz⟩ := hInv
  refine processData_cases s pkt InvWF ?_ ?_ ?_ ?_ ?_
  · intro _
    exact ⟨hWF, hwr, hwlt, hrlt, hsz⟩
  · intro _ _
    refine ⟨?_, ?_, hwlt, hrlt, ?_⟩
    · intro j hj
      by_cases hjw : j = s.writeFrame
      · rw [hjw, setFrame_frames_self]
        rcases allocSlot_cases (s.frames s.writeFrame) with h | h
        · rw [h]
          exact hWF s.writeFrame hwlt
        · rw [h]
          exact fun hr => Bool.noConfusion hr
      · rw [setFrame_frames_other _ _ _ _ hjw]
        exact hWF j hj
    · rw [setFrame_writeFrame, setFrame_frames_self]
      exact allocSlot_ready_false _ hwr
    · intro j hj
      by_cases hjw : j = s.writeFrame
      · rw [hjw, setFrame_frames_self]
        exact le_trans (allocSlot_data_le _) (hsz _ hwlt)
      · rw [setFrame_frames_other _ _ _ _ hjw]
        exact hsz j hj
  · intro _ hlen _
    have hFr : (if 2 ≤ (pkt.drop HEADER_SIZE).length ∧
          (pkt.drop HEADER_SIZE).take 2 = [255, 216]
        then (⟨pkt.drop HEADER_SIZE, false, true⟩ : Frame)
        else (⟨[], false, true⟩ : Frame)).ready = false := by
      split_ifs <;> rfl
    have hFd : (if 2 ≤ (pkt.drop HEADER_SIZE).length ∧
          (pkt.drop HEADER_SIZE).take 2 = [255, 216]
        then (⟨pkt.drop HEADER_SIZE, false, true⟩ : Frame)
        else (⟨[], false, true⟩ : Frame)).data.length ≤ BUFFER_SIZE := by
      split_ifs
      · rw [Frame_data_mk, List.length_drop]
        omega
      · exact Nat.zero_le _
    refine ⟨?_, ?_, hwlt, hrlt, ?_⟩
    · intro j hj
      by_cases hjw : j = s.writeFrame
      · rw [hjw, setFrame_frames_self]
        intro hr
        rw [hFr] at hr
        exact Bool.noConfusion hr
      · rw [setFrame_frames_other _ _ _ _ hjw]
        exact hWF j hj
    · rw [setFrame_writeFrame, setFrame_frames_self]
      exact hFr
    · intro j hj
      by_cases hjw : j = s.writeFrame
      · rw [hjw, setFrame_frames_self]
        exact hFd
      · rw [setFrame_frames_other _ _ _ _ hjw]
        exact hsz j hj
  · intro c hm hlen hov hscan
    obtain ⟨m, hcm, hEc⟩ := scanEOI_sound hscan
    subst hcm
    have hsdr : (soiDiscard (pkt.drop HEADER_SIZE)
        (allocSlot (s.frames s.writeFrame))).ready = false := by
      rw [soiDiscard_ready]
      exact allocSlot_ready_false _ hwr
    have hllen : ((soiDiscard (pkt.drop HEADER_SIZE)
        (allocSlot (s.frames s.writeFrame))).data ++ pkt.drop HEADER_SIZE).length ≤
        BUFFER_SIZE := by
      rw [List.length_append]
      exact hov
    apply acceptFrame_safety_InvWF
    · refine ⟨?_, ?_, hwlt, hrlt, ?_⟩
      · intro j hj
        by_cases hjw : j = s.writeFrame
        · rw [hjw, setFrame_frames_self]
          intro hr
          rw [hsdr] at hr
          exact Bool.noConfusion hr
        · rw [setFrame_frames_other _ _ _ _ hjw]
          exact hWF j hj
      · rw [setFrame_writeFrame, setFrame_frames_self]
        exact hsdr
      · intro j hj
        by_cases hjw : j = s.writeFrame
        · rw [hjw, setFrame_frames_self]
          exact hllen
        · rw [setFrame_frames_other _ _ _ _ hjw]
          exact hsz j hj
    · rw [setFrame_writeFrame, setFrame_frames_self]
      exact hEc
  · intro hm hlen hov hscan
    have hsdr : (soiDiscard (pkt.drop HEADER_SIZE)
        (allocSlot (s.frames s.writeFrame))).ready = false := by
      rw [soiDiscard_ready]
      exact allocSlot_ready_false _ hwr
    have hllen : ((soiDiscard (pkt.drop HEADER_SIZE)
        (allocSlot (s.frames s.writeFrame))).data ++ pkt.drop HEADER_SIZE).length ≤
        BUFFER_SIZE := by
      rw [List.length_append]
      exact hov
    refine ⟨?_, ?_, ?_, ?_, ?_⟩
    · intro j hj
      rw [safetyCheck_frames_full]
      split_ifs with hcnd
      · intro hr
        rw [hcnd.2.2] at hr
        exact Bool.noConfusion hr
      · by_cases hjw : j = s.writeFrame
        · rw [hjw, setFrame_frames_self]
          intro hr
          rw [hsdr] at hr
          exact Bool.noConfusion hr
        · rw [setFrame_frames_other _ _ _ _ hjw]
          exact hWF j hj
    · rw [safetyCheck_writeFrame, safetyCheck_frames_full]
      split_ifs with hcnd
      · exact hcnd.2.2
      · rw [setFrame_writeFrame, setFrame_frames_self]
        exact hsdr
    · rw [safetyCheck_writeFrame]
      exact hwlt
    · rw [safetyCheck_readFrame]
      exact hrlt
    · intro j hj
      rw [safetyCheck_frames_full]
      split_ifs with hcnd
      · exact Nat.zero_le _
      · by_cases hjw : j = s.writeFrame
        · rw [hjw, setFrame_frames_self]
          exact hllen
        · rw [setFrame_frames_other _ _ _ _ hjw]
          exact hsz j hj

/-- camera_read_frame preserves the ring invariant, and on success copies out
a frame that the invariant certifies well-formed. -/
theorem cameraReadFrame_InvWF (s : CamState) (b : Nat) (hInv : InvWF s) :
    InvWF (cameraReadFrame s b).2.2 ∧
      ((cameraReadFrame s b).1 = CameraStatus.success →
        jpegWF (cameraReadFrame s b).2.1) := by
  obtain ⟨hWF, hwr, hwlt, hrlt, hsz⟩ := hInv
  by_cases h1 : s.streaming = false
  · have he : cameraReadFrame s b = (.errorNoFrame, [], s) := by
      unfold cameraReadFrame
      rw [if_pos h1]
    rw [he]
    exact ⟨⟨hWF, hwr, hwlt, hrlt, hsz⟩, fun h => CameraStatus.noConfusion h⟩
  · by_cases h2 : (s.frames s.readFrame).ready = true
    · by_cases h3 : b < (s.frames s.readFrame).data.length
      · have he : cameraReadFrame s b = (.errorBufferSmall, [], s) := by
          unfold cameraReadFrame
          rw [if_neg h1]
          simp only []
          rw [if_pos h2, if_pos h3]
        rw [he]
        exact ⟨⟨hWF, hwr, hwlt, hrlt, hsz⟩, fun h => CameraStatus.noConfusion h⟩
      · have he : cameraReadFrame s b =
            (.success, (s.frames s.readFrame).data,
              { setFrame s s.readFrame
                  { s.frames s.readFrame with ready := false, data := [] } with
                readFrame := (s.readFrame + 1) % MAX_FRAMES }) := by
          unfold cameraReadFrame
          rw [if_neg h1]
          simp only []
          rw [if_pos h2, if_neg h3]
        rw [he]
        constructor
        · refine ⟨?_, ?_, ?_, ?_, ?_⟩
          · intro j hj
            show frameWF ((setFrame s s.readFrame
              { s.frames s.readFrame with ready := false, data := [] }).frames j)
            by_cases hjr : j = s.readFrame
            · rw [hjr, setFrame_frames_self]
              exact fun hr => Bool.noConfusion hr
            · rw [setFrame_frames_other _ _ _ _ hjr]
              exact hWF j hj
          · show ((setFrame s s.readFrame
              { s.frames s.readFrame with ready := false, data := [] }).frames
                s.writeFrame).ready = false
            by_cases hjr : s.writeFrame = s.readFrame
            · rw [hjr, setFrame_frames_self]
            · rw [setFrame_frames_other _ _ _ _ hjr]
              exact hwr
          · exact hwlt
          · exact Nat.mod_lt _ (by decide)
          · intro j hj
            show ((setFrame s s.readFrame
              { s.frames s.readFrame with ready := false, data := [] }).frames
                j).data.length ≤ BUFFER_SIZE
            by_cases hjr : j = s.readFrame
            · rw [hjr, setFrame_frames_self]
              exact Nat.zero_le _
            · rw [setFrame_frames_other _ _ _ _ hjr]
              exact hsz j hj
        · intro _
          exact hWF s.readFrame hrlt h2
    · have he : cameraReadFrame s b = (.errorTimeout, [], s) := by
        unfold cameraReadFrame
        rw [if_neg h1]
        simp only []
        rw [if_neg h2]
      rw [he]
      exact ⟨⟨hWF, hwr, hwlt, hrlt, hsz⟩, fun h => CameraStatus.noConfusion h⟩

/-- camera_stop_streaming preserves the ring invariant. -/
theorem cameraStopStreaming_InvWF (s : CamState) (hInv : InvWF s) :
    InvWF (cameraStopStreaming s) := by
  obtain ⟨hWF, hwr, hwlt, hrlt, hsz⟩ := hInv
  unfold cameraStopStreaming
  split_ifs with h1
  · exact ⟨hWF, hwr, hwlt, hrlt, hsz⟩
  · refine ⟨?_, ?_, show (0 : Nat) < MAX_FRAMES by decide,
      show (0 : Nat) < MAX_FRAMES by decide, ?_⟩
    · intro j hj
      show frameWF (if j < MAX_FRAMES then
        { s.frames j with ready := false, data := [] } else s.frames j)
      rw [if_pos hj]
      exact fun hr => Bool.noConfusion hr
    · show (if (0 : Nat) < MAX_FRAMES then
        { s.frames 0 with ready := false, data := [] } else s.frames 0).ready = false
      rw [if_pos (by decide : (0 : Nat) < MAX_FRAMES)]
    · intro j hj
      show (if j < MAX_FRAMES then
        { s.frames j with ready := false, data := [] } else s.frames j).data.length ≤
        BUFFER_SIZE
      rw [if_pos hj]
      exact Nat.zero_le _

/-- C9: the ring invariant — every ready slot holds data starting with SOI,
ending with EOI, of length between MIN_JPEG_SIZE and the slot capacity, the
write slot is never ready, and both indices are in range — is preserved by
process_data (for packets no longer than the transport buffer), by
camera_read_frame, and by camera_stop_streaming; consequently every
successful camera_read_frame call returns a well-formed byte string. -/
theorem C9_ready_slot_wellformed (s : CamState) (pkt : List Nat) (bufSize : Nat)
    (hpkt : pkt.length ≤ BUFFER_SIZE) (hInv : InvWF s) :
    InvWF (processData s pkt) ∧
    InvWF (cameraReadFrame s bufSize).2.2 ∧
    InvWF (cameraStopStreaming s) ∧
    ((cameraReadFrame s bufSize).1 = CameraStatus.success →
      jpegWF (cameraReadFrame s bufSize).2.1) :=
  ⟨processData_InvWF s pkt hpkt hInv,
   (cameraReadFrame_InvWF s bufSize hInv).1,
   cameraStopStreaming_InvWF s hInv,
   (cameraReadFrame_InvWF s bufSize hInv).2⟩

/-- Witness for C9 at the freshly opened state with an empty packet. -/
theorem C9_witness :
    ([] : List Nat).length ≤ BUFFER_SIZE ∧ InvWF openState ∧
    (InvWF (processData openState []) ∧
     InvWF (cameraReadFrame openState 0).2.2 ∧
     InvWF (cameraStopStreaming openState) ∧
     ((cameraReadFrame openState 0).1 = CameraStatus.success →
       jpegWF (cameraReadFrame openState 0).2.1)) :=
  ⟨by decide, by decide,
   C9_ready_slot_wellformed openState [] 0 (by decide) (by decide)⟩


/-! ### Claim C2: drop accounting under a full ring -/

set_option maxRecDepth 40000 in
theorem jpegF_length (m : Nat) : (jpegF m).length = 1000 := by
  simp [jpegF]

set_option maxRecDepth 40000 in
theorem scanEOI_jpegF (m : Nat) : scanEOI (jpegF m) = some 1000 := by
  have h3 : ([255, 216, m % 256] : List Nat).length = 3 := rfl
  have h998 : (jpegF m).getD 998 0 = 255 := by
    show ([255, 216, m % 256] ++ (List.replicate 995 0 ++ [255, 217])).getD 998 0 = 255
    rw [List.getD_append_right _ _ _ _ (by rw [h3]; omega), h3]
    decide
  have h999 : (jpegF m).getD 999 0 = 217 := by
    show ([255, 216, m % 256] ++ (List.replicate 995 0 ++ [255, 217])).getD 999 0 = 217
    rw [List.getD_append_right _ _ _ _ (by rw [h3]; omega), h3]
    decide
  have hcond : eoiCond (jpegF m) 999 :=
    ⟨by omega, by rw [jpegF_length]; omega, h998, h999, by decide, rfl⟩
  exact scanEOI_eq_some hcond
    (fun j hj hc => absurd hc.2.2.2.2.1 (by simp only [MIN_JPEG_SIZE]; omega))

/-- The read pointer and dropped counter after an accepted frame, with the
drop-the-oldest condition phrased on the pre-call state. -/
theorem acceptFrame_read_dropped (X : CamState) (c : Nat) :
    (safetyCheck (acceptFrame X c)).readFrame =
      (if (X.writeFrame + 1) % MAX_FRAMES = X.readFrame ∧
          (X.frames X.readFrame).ready = true
       then (X.readFrame + 1) % MAX_FRAMES else X.readFrame) ∧
    (safetyCheck (acceptFrame X c)).framesDropped =
      (if (X.writeFrame + 1) % MAX_FRAMES = X.readFrame ∧
          (X.frames X.readFrame).ready = true
       then X.framesDropped + 1 else X.framesDropped) := by
  rw [safetyCheck_readFrame, acceptFrame_readFrame, safetyCheck_framesDropped,
    acceptFrame_framesDropped]
  by_cases h1 : (X.writeFrame + 1) % MAX_FRAMES = X.readFrame
  · have hne : X.readFrame ≠ X.writeFrame := by
      rw [← h1]
      exact nextWrite_ne _
    rw [setFrame_frames_other _ _ _ _ hne]
    exact ⟨rfl, rfl⟩
  · have hA : ¬ ((X.writeFrame + 1) % MAX_FRAMES = X.readFrame ∧
        ((setFrame X X.writeFrame
          { X.frames X.writeFrame with
            data := (X.frames X.writeFrame).data.take c,
            ready := true }).frames X.readFrame).ready = true) := fun hc => h1 hc.1
    have hB : ¬ ((X.writeFrame + 1) % MAX_FRAMES = X.readFrame ∧
        (X.frames X.readFrame).ready = true) := fun hc => h1 hc.1
    rw [if_neg hA, if_neg hA, if_neg hB, if_neg hB]
    exact ⟨rfl, rfl⟩

/-- The session start state, phrased as the expected state after zero
completed frames. -/
theorem stateAfter_zero : startedState = stateAfter 0 := by
  apply CamState.ext
  · funext j
    show (⟨[], false, false⟩ : Frame) = expectedSlot 0 j
    unfold expectedSlot
    by_cases h12 : 12 ≤ j
    · rw [if_pos h12]
    · rw [if_neg h12, if_pos rfl]
  · rfl
  · rfl
  · rfl
  · rfl
  · rfl

set_option maxRecDepth 40000 in
/-- One producer step on the expected state: completing frame `k + 1`
advances the expected state. -/
theorem produce_step (k : Nat) :
    processData (stateAfter k) (framePkt (k + 1)) = stateAfter (k + 1) := by
  have hfl : (framePkt (k + 1)).length = 1012 := by
    simp [framePkt, hdr12, jpegF]
  have hm : magicOK (framePkt (k + 1)) := ⟨by rw [hfl]; omega, rfl, rfl, rfl⟩
  have hlen : HEADER_SIZE < (framePkt (k + 1)).length := by
    rw [hfl]
    decide
  have hdropP : (framePkt (k + 1)).drop HEADER_SIZE = jpegF (k + 1) := by
    show (hdr12 ++ jpegF (k + 1)).drop HEADER_SIZE = jpegF (k + 1)
    rw [show HEADER_SIZE = hdr12.length from rfl]
    exact List.drop_left _ _
  have halloc : allocSlot ((stateAfter k).frames (stateAfter k).writeFrame) =
      ⟨[], false, true⟩ := by
    show allocSlot (expectedSlot k (k % 12)) = ⟨[], false, true⟩
    unfold expectedSlot
    rw [if_neg (show ¬ 12 ≤ k % 12 by omega)]
    by_cases hk : k = 0
    · rw [if_pos hk]
      rfl
    · rw [if_neg hk, if_pos rfl]
      rfl
  have hsd : soiDiscard ((framePkt (k + 1)).drop HEADER_SIZE)
      (allocSlot ((stateAfter k).frames (stateAfter k).writeFrame)) = ⟨[], false, true⟩ := by
    rw [halloc]
    unfold soiDiscard
    rw [if_neg (fun hc => absurd hc.2.2.1 (by simp))]
  have hov : (soiDiscard ((framePkt (k + 1)).drop HEADER_SIZE)
      (allocSlot ((stateAfter k).frames (stateAfter k).writeFrame))).data.length +
        ((framePkt (k + 1)).drop HEADER_SIZE).length ≤ BUFFER_SIZE := by
    rw [hsd, hdropP, Frame_data_mk, jpegF_length]
    decide
  have happ : (soiDiscard ((framePkt (k + 1)).drop HEADER_SIZE)
      (allocSlot ((stateAfter k).frames (stateAfter k).writeFrame))).data ++
        (framePkt (k + 1)).drop HEADER_SIZE = jpegF (k + 1) := by
    rw [hsd, hdropP, Frame_data_mk]
    exact List.nil_append _
  have hscan : scanEOI ((soiDiscard ((framePkt (k + 1)).drop HEADER_SIZE)
      (allocSlot ((stateAfter k).frames (stateAfter k).writeFrame))).data ++
        (framePkt (k + 1)).drop HEADER_SIZE) = some 1000 := by
    rw [happ]
    exact scanEOI_jpegF (k + 1)
  rw [processData_append_some (stateAfter k) (framePkt (k + 1)) 1000 hm hlen hov hscan]
  have hfr2 : ({ soiDiscard ((framePkt (k + 1)).drop HEADER_SIZE)
        (allocSlot ((stateAfter k).frames (stateAfter k).writeFrame)) with
      data := (soiDiscard ((framePkt (k + 1)).drop HEADER_SIZE)
        (allocSlot ((stateAfter k).frames (stateAfter k).writeFrame))).data ++
          (framePkt (k + 1)).drop HEADER_SIZE } : Frame) = ⟨jpegF (k + 1), false, true⟩ := by
    rw [happ, hsd]
  rw [hfr2]
  set Y := setFrame (stateAfter k) (stateAfter k).writeFrame
    (⟨jpegF (k + 1), false, true⟩ : Frame) with hY
  have hYw : Y.writeFrame = k % 12 := by
    rw [hY, setFrame_writeFrame]
    rfl
  have hYr : Y.readFrame = (k - min k 11) % 12 := by
    rw [hY, setFrame_readFrame]
    rfl
  have hYc : Y.framesCaptured = k := by
    rw [hY, setFrame_framesCaptured]
    rfl
  have hYd : Y.framesDropped = k - min k 11 := by
    rw [hY, setFrame_framesDropped]
    rfl
  have hYs : Y.streaming = true := by
    rw [hY, setFrame_streaming]
    rfl
  have hYsw : Y.frames Y.writeFrame = ⟨jpegF (k + 1), false, true⟩ := by
    rw [hY, setFrame_writeFrame]
    exact setFrame_frames_self _ _ _
  have hYother : ∀ j, j ≠ k % 12 → Y.frames j = expectedSlot k j := by
    intro j hj
    rw [hY, setFrame_frames_other _ _ _ _ (show j ≠ (stateAfter k).writeFrame from hj)]
    rfl
  have htake : (jpegF (k + 1)).take 1000 = jpegF (k + 1) := by
    rw [show (1000 : Nat) = (jpegF (k + 1)).length from (jpegF_length (k + 1)).symm,
      List.take_length]
  have hdropN : (jpegF (k + 1)).drop 1000 = [] := by
    rw [show (1000 : Nat) = (jpegF (k + 1)).length from (jpegF_length (k + 1)).symm,
      List.drop_length]
  have hNW : (Y.writeFrame + 1) % MAX_FRAMES = (k + 1) % 12 := by
    rw [hYw]
    simp only [MAX_FRAMES]
    omega
  have hacc : (safetyCheck (acceptFrame Y 1000)).frames (k % 12) =
      ⟨jpegF (k + 1), true, true⟩ := by
    have h := accepted_slot_after Y 1000
    rw [hYsw, hYw] at h
    rw [Frame_data_mk, htake] at h
    rw [h]
  have hnew : (safetyCheck (acceptFrame Y 1000)).frames ((k + 1) % 12) =
      ⟨[], false, true⟩ := by
    have h := new_write_slot_after Y 1000
    rw [hYsw, hNW] at h
    rw [Frame_data_mk, hdropN] at h
    rw [if_neg (show ¬ ((0 < ([] : List Nat).length ∧
        ([] : List Nat).length < BUFFER_SIZE) ∧ 2 ≤ ([] : List Nat).length) by decide)] at h
    rw [if_neg (show ¬ MAX_JPEG_SIZE < ([] : List Nat).length by decide)] at h
    exact h
  have hcondIff : ((Y.writeFrame + 1) % MAX_FRAMES = Y.readFrame ∧
      (Y.frames Y.readFrame).ready = true) ↔ 11 ≤ k := by
    constructor
    · intro hc
      have h1 := hc.1
      rw [hNW, hYr] at h1
      omega
    · intro hk11
      constructor
      · rw [hNW, hYr]
        omega
      · have hRne : (k - min k 11) % 12 ≠ k % 12 := by omega
        rw [hYr, hYother _ hRne]
        unfold expectedSlot
        rw [if_neg (show ¬ 12 ≤ (k - min k 11) % 12 by omega),
            if_neg (show ¬ k = 0 by omega),
            if_neg hRne,
            if_pos (show (k - min k 11) % 12 + 1 ≤ k by omega)]
  obtain ⟨hrd1, hrd2⟩ := acceptFrame_read_dropped Y 1000
  apply CamState.ext
  · funext j
    by_cases hjn : j = (k + 1) % 12
    · rw [hjn, hnew]
      show (⟨[], false, true⟩ : Frame) = expectedSlot (k + 1) ((k + 1) % 12)
      unfold expectedSlot
      rw [if_neg (show ¬ 12 ≤ (k + 1) % 12 by omega),
          if_neg (show ¬ k + 1 = 0 by omega),
          if_pos rfl]
    · by_cases hjw : j = k % 12
      · rw [hjw, hacc]
        show (⟨jpegF (k + 1), true, true⟩ : Frame) = expectedSlot (k + 1) (k % 12)
        unfold expectedSlot
        rw [if_neg (show ¬ 12 ≤ k % 12 by omega),
            if_neg (show ¬ k + 1 = 0 by omega),
            if_neg (show ¬ k % 12 = (k + 1) % 12 by omega),
            if_pos (show k % 12 + 1 ≤ k + 1 by omega)]
        rw [show k + 1 - (k + 1 - k % 12 - 1) % 12 = k + 1 by omega]
      · have h1 : j ≠ Y.writeFrame := by
          rw [hYw]
          exact hjw
        have h2 : j ≠ (Y.writeFrame + 1) % MAX_FRAMES := by
          rw [hNW]
          exact hjn
        rw [untouched_slot_after Y 1000 j h1 h2, hYother j hjw]
        show expectedSlot k j = expectedSlot (k + 1) j
        unfold expectedSlot
        by_cases h12 : 12 ≤ j
        · rw [if_pos h12, if_pos h12]
        · rw [if_neg h12, if_neg h12, if_neg (show ¬ k + 1 = 0 by omega)]
          by_cases hk0 : k = 0
          · rw [if_pos hk0, if_neg hjn, if_neg (show ¬ j + 1 ≤ k + 1 by omega)]
          · rw [if_neg hk0, if_neg hjw, if_neg hjn]
            by_cases hjk : j + 1 ≤ k
            · rw [if_pos hjk, if_pos (show j + 1 ≤ k + 1 by omega)]
              rw [show k - (k - j - 1) % 12 = k + 1 - (k + 1 - j - 1) % 12 by omega]
            · rw [if_neg hjk, if_neg (show ¬ j + 1 ≤ k + 1 by omega)]
  · rw [safetyCheck_writeFrame, acceptFrame_writeFrame, hNW]
    rfl
  · rw [hrd1]
    by_cases hk11 : 11 ≤ k
    · rw [if_pos (hcondIff.mpr hk11), hYr]
      show ((k - min k 11) % 12 + 1) % MAX_FRAMES = (k + 1 - min (k + 1) 11) % 12
      simp only [MAX_FRAMES]
      omega
    · rw [if_neg (fun hc => hk11 (hcondIff.mp hc)), hYr]
      show (k - min k 11) % 12 = (k + 1 - min (k + 1) 11) % 12
      omega
  · rw [safetyCheck_framesCaptured, acceptFrame_framesCaptured, hYc]
    rfl
  · rw [hrd2]
    by_cases hk11 : 11 ≤ k
    · rw [if_pos (hcondIff.mpr hk11), hYd]
      show k - min k 11 + 1 = k + 1 - min (k + 1) 11
      omega
    · rw [if_neg (fun hc => hk11 (hcondIff.mp hc)), hYd]
      show k - min k 11 = k + 1 - min (k + 1) 11
      omega
  · rw [safetyCheck_streaming, acceptFrame_streaming, hYs]
    rfl

/-- After `k` completed frames and no reads, the device is in the expected
state: write slot clean, the up-to-11 most recent frames ready. -/
theorem produceK_eq (k : Nat) : produceK k = stateAfter k := by
  induction k with
  | zero => exact stateAfter_zero
  | succ k ih =>
    have hfold : produceK (k + 1) = processData (produceK k) (framePkt (k + 1)) := by
      unfold produceK
      rw [List.range_succ, List.foldl_append, List.foldl_cons, List.foldl_nil]
    rw [hfold, ih]
    exact produce_step k

set_option maxRecDepth 200000 in
/-- C2 counterexample: after 13 completed frames and no reads, the code
reports 2 dropped frames, not 13 - 12 = 1, and the next read returns the
3rd completed frame, not the 2nd: the drop-the-oldest test fires as soon as
the write pointer catches the read pointer, so the 12-slot ring holds at
most 11 ready frames. -/
theorem C2_counterexample :
    (produceK 13).framesCaptured = 13 ∧
    (produceK 13).framesDropped = 2 ∧
    (2 : Nat) ≠ 13 - 12 ∧
    (cameraReadFrame (produceK 13) BUFFER_SIZE).1 = CameraStatus.success ∧
    (cameraReadFrame (produceK 13) BUFFER_SIZE).2.1 = jpegF 3 ∧
    jpegF 3 ≠ jpegF 2 := by
  rw [produceK_eq]
  exact ⟨rfl, rfl, by decide, by decide, by decide, by decide⟩

/-- C2 (amended): the effective ring capacity is 11, not 12: after K > 12
completed frames with no reads, frames_dropped equals K - 11 and the next
successful read returns the bytes of the (K - 10)-th completed frame. -/
theorem C2_drop_accounting_eleven (K : Nat) (hK : 12 < K) :
    (produceK K).framesCaptured = K ∧
    (produceK K).framesDropped = K - 11 ∧
    (cameraReadFrame (produceK K) BUFFER_SIZE).1 = CameraStatus.success ∧
    (cameraReadFrame (produceK K) BUFFER_SIZE).2.1 = jpegF (K - 10) := by
  rw [produceK_eq]
  have hrd : (stateAfter K).readFrame = (K - 11) % 12 := by
    show (K - min K 11) % 12 = (K - 11) % 12
    omega
  have hslot : (stateAfter K).frames ((K - 11) % 12) = ⟨jpegF (K - 10), true, true⟩ := by
    show expectedSlot K ((K - 11) % 12) = _
    unfold expectedSlot
    rw [if_neg (show ¬ 12 ≤ (K - 11) % 12 by omega),
        if_neg (show ¬ K = 0 by omega),
        if_neg (show ¬ (K - 11) % 12 = K % 12 by omega),
        if_pos (show (K - 11) % 12 + 1 ≤ K by omega)]
    rw [show K - (K - (K - 11) % 12 - 1) % 12 = K - 10 by omega]
  refine ⟨rfl, ?_, ?_, ?_⟩
  · show K - min K 11 = K - 11
    omega
  · unfold cameraReadFrame
    rw [if_neg (show ¬ (stateAfter K).streaming = false from fun h => Bool.noConfusion h)]
    simp only []
    rw [hrd, hslot]
    rw [if_pos (show (Frame.mk (jpegF (K - 10)) true true).ready = true from rfl)]
    rw [if_neg (show ¬ BUFFER_SIZE < (Frame.mk (jpegF (K - 10)) true true).data.length by
      rw [Frame_data_mk, jpegF_length]
      decide)]
  · unfold cameraReadFrame
    rw [if_neg (show ¬ (stateAfter K).streaming = false from fun h => Bool.noConfusion h)]
    simp only []
    rw [hrd, hslot]
    rw [if_pos (show (Frame.mk (jpegF (K - 10)) true true).ready = true from rfl)]
    rw [if_neg (show ¬ BUFFER_SIZE < (Frame.mk (jpegF (K - 10)) true true).data.length by
      rw [Frame_data_mk, jpegF_length]
      decide)]

set_option maxRecDepth 200000 in
/-- Witness for C2 at K = 13. -/
theorem C2_witness :
    12 < 13 ∧
    ((produceK 13).framesCaptured = 13 ∧
     (produceK 13).framesDropped = 13 - 11 ∧
     (cameraReadFrame (produceK 13) BUFFER_SIZE).1 = CameraStatus.success ∧
     (cameraReadFrame (produceK 13) BUFFER_SIZE).2.1 = jpegF (13 - 10)) :=
  ⟨by decide, C2_drop_accounting_eleven 13 (by decide)⟩


/-! ### Claim C1: reassembly across packet boundaries -/

theorem packetOK_magic (p : List Nat) (hp : packetOK p) : magicOK p := by
  obtain ⟨hlen, htake⟩ := hp
  have hsplit : p = [170, 187, 7] ++ p.drop 3 := by
    conv_lhs => rw [← List.take_append_drop 3 p]
    rw [htake]
  refine ⟨by simp only [HEADER_SIZE] at hlen; omega, ?_, ?_, ?_⟩ <;>
    · rw [hsplit, List.getD_append _ _ _ _ (by decide)]
      rfl

theorem getD_take_eq (l : List Nat) (n i : Nat) (h : i < n) :
    (l.take n).getD i 0 = l.getD i 0 := by
  by_cases hi : i < l.length
  · rw [List.getD_eq_getElem _ _ (show i < (l.take n).length by
        rw [List.length_take]; omega),
      List.getD_eq_getElem _ _ hi]
    exact List.getElem_take l
  · rw [List.getD_eq_default _ _ (show (l.take n).length ≤ i by
        rw [List.length_take]; omega),
      List.getD_eq_default _ _ (by omega)]

/-- Scanning a proper prefix of a buffer whose only qualifying EOI is at the
very end finds nothing. -/
theorem scanEOI_prefix_none (b : List Nat) (n : Nat) (hn : n < b.length)
    (huniq : ∀ j, j < b.length - 1 → ¬ eoiCond b j) :
    scanEOI (b.take n) = none := by
  apply scanEOI_eq_none
  intro j hc
  obtain ⟨h1, h2, h3, h4, h5, h6⟩ := hc
  rw [List.length_take] at h2
  apply huniq j (by omega)
  refine ⟨h1, by omega, ?_, ?_, h5, ?_⟩
  · rw [← h3]
    exact (getD_take_eq b n (j - 1) (by omega)).symm
  · rw [← h4]
    exact (getD_take_eq b n j (by omega)).symm
  · rw [← h6, List.take_take, show min 2 n = 2 by omega]

/-- The safety valve is a no-op on a write slot within the size limit. -/
theorem safetyCheck_small (t : CamState)
    (h : (t.frames t.writeFrame).data.length ≤ MAX_JPEG_SIZE) : safetyCheck t = t := by
  unfold safetyCheck
  rw [if_neg (fun hc => absurd hc.1 (by omega))]

theorem allocSlot_acc (P : List Nat) (a : Bool) (ha : a = false → P = []) :
    allocSlot ⟨P, false, a⟩ = ⟨P, false, true⟩ := by
  cases a
  · rw [ha rfl]
    rfl
  · rfl

theorem startedState_accState : startedState = accState [] false := by
  apply CamState.ext
  · funext j
    show (⟨[], false, false⟩ : Frame) =
      if j = 0 then (⟨[], false, false⟩ : Frame) else ⟨[], false, false⟩
    split_ifs <;> rfl
  · rfl
  · rfl
  · rfl
  · rfl
  · rfl

theorem setFrame_accState (P : List Nat) (a : Bool) (P2 : List Nat) (a2 : Bool) :
    setFrame (accState P a) 0 ⟨P2, false, a2⟩ = accState P2 a2 := by
  apply CamState.ext
  · funext j
    show (if j = 0 then (⟨P2, false, a2⟩ : Frame)
        else if j = 0 then ⟨P, false, a⟩ else ⟨[], false, false⟩) =
      if j = 0 then ⟨P2, false, a2⟩ else ⟨[], false, false⟩
    by_cases hj : j = 0
    · rw [if_pos hj, if_pos hj]
    · rw [if_neg hj, if_neg hj, if_neg hj]
  · rfl
  · rfl
  · rfl
  · rfl
  · rfl

/-- One accumulating packet: a packet whose payload is the next slice of `b`,
not yet completing it, extends the accumulated prefix. -/
theorem C1_acc_step (b p : List Nat) (n : Nat) (a : Bool)
    (huniq : ∀ j, j < b.length - 1 → ¬ eoiCond b j)
    (hsoi : ∀ i, i < b.length → 0 < i → ¬ (b.drop i).take 2 = [255, 216])
    (hmax : b.length ≤ MAX_JPEG_SIZE + 1)
    (hp : packetOK p)
    (ha : a = false → b.take n = [])
    (hq : p.drop HEADER_SIZE = (b.drop n).take (p.drop HEADER_SIZE).length)
    (hn' : n + (p.drop HEADER_SIZE).length < b.length) :
    processData (accState (b.take n) a) p =
      accState (b.take (n + (p.drop HEADER_SIZE).length)) true := by
  have hm := packetOK_magic p hp
  have hnb : n < b.length := by omega
  have htn : (b.take n).length = n := by
    rw [List.length_take]
    omega
  have halloc2 : allocSlot ((accState (b.take n) a).frames
      (accState (b.take n) a).writeFrame) = ⟨b.take n, false, true⟩ := by
    show allocSlot ⟨b.take n, false, a⟩ = ⟨b.take n, false, true⟩
    exact allocSlot_acc _ _ ha
  obtain ⟨m, hm'⟩ : ∃ m, (p.drop HEADER_SIZE).length = m := ⟨_, rfl⟩
  rw [hm'] at hq hn' ⊢
  by_cases hl : HEADER_SIZE < p.length
  · have hm0 : 0 < m := by
      rw [← hm', List.length_drop]
      omega
    have hnosoi : ¬ (2 ≤ (p.drop HEADER_SIZE).length ∧
        (p.drop HEADER_SIZE).take 2 = [255, 216] ∧
        0 < (Frame.mk (b.take n) false true).data.length ∧
        (Frame.mk (b.take n) false true).ready = false) := by
      rintro ⟨h2, hsoi2, hpos, -⟩
      rw [Frame_data_mk, htn] at hpos
      rw [hm'] at h2
      have htk : (p.drop HEADER_SIZE).take 2 = (b.drop n).take 2 := by
        rw [hq, List.take_take, show min 2 m = 2 by omega]
      exact hsoi n hnb hpos (htk ▸ hsoi2)
    have hsd2 : soiDiscard (p.drop HEADER_SIZE) (allocSlot ((accState (b.take n) a).frames
        (accState (b.take n) a).writeFrame)) = ⟨b.take n, false, true⟩ := by
      rw [halloc2]
      unfold soiDiscard
      rw [if_neg hnosoi]
    have hov2 : (soiDiscard (p.drop HEADER_SIZE) (allocSlot ((accState (b.take n) a).frames
        (accState (b.take n) a).writeFrame))).data.length +
          (p.drop HEADER_SIZE).length ≤ BUFFER_SIZE := by
      rw [hsd2, Frame_data_mk, htn, hm']
      simp only [MAX_JPEG_SIZE, BUFFER_SIZE] at hmax ⊢
      omega
    have happ2 : (soiDiscard (p.drop HEADER_SIZE) (allocSlot ((accState (b.take n) a).frames
        (accState (b.take n) a).writeFrame))).data ++ p.drop HEADER_SIZE =
          b.take (n + m) := by
      rw [hsd2, Frame_data_mk, hq]
      exact (List.take_add b n m).symm
    have hscan2 : scanEOI ((soiDiscard (p.drop HEADER_SIZE)
        (allocSlot ((accState (b.take n) a).frames
          (accState (b.take n) a).writeFrame))).data ++ p.drop HEADER_SIZE) = none := by
      rw [happ2]
      exact scanEOI_prefix_none b (n + m) (by omega) huniq
    rw [processData_append_none _ _ hm hl hov2 hscan2]
    have hfr : ({ soiDiscard (p.drop HEADER_SIZE) (allocSlot ((accState (b.take n) a).frames
          (accState (b.take n) a).writeFrame)) with
        data := (soiDiscard (p.drop HEADER_SIZE) (allocSlot ((accState (b.take n) a).frames
          (accState (b.take n) a).writeFrame))).data ++ p.drop HEADER_SIZE } : Frame) =
        ⟨b.take (n + m), false, true⟩ := by
      rw [happ2, hsd2]
    rw [hfr]
    rw [safetyCheck_small _ (by
      rw [setFrame_writeFrame, setFrame_frames_self, Frame_data_mk, List.length_take]
      simp only [MAX_JPEG_SIZE, BUFFER_SIZE] at hmax ⊢
      omega)]
    exact setFrame_accState _ _ _ _
  · have hq0 : p.drop HEADER_SIZE = [] := by
      apply List.drop_eq_nil_of_le
      omega
    have hm0 : m = 0 := by
      rw [← hm', hq0]
      rfl
    rw [processData_header_only _ _ hm (by omega), halloc2, hm0, Nat.add_zero]
    exact setFrame_accState _ _ _ _

/-- The completing packet: the payload slice reaching the end of `b` makes the
frame accepted and leaves the device in the done state. -/
theorem C1_done_step (b p : List Nat) (n : Nat) (a : Bool)
    (hEOIend : eoiCond b (b.length - 1))
    (huniq : ∀ j, j < b.length - 1 → ¬ eoiCond b j)
    (hsoi : ∀ i, i < b.length → 0 < i → ¬ (b.drop i).take 2 = [255, 216])
    (hmax : b.length ≤ MAX_JPEG_SIZE + 1)
    (hp : packetOK p)
    (ha : a = false → b.take n = [])
    (hq : p.drop HEADER_SIZE = (b.drop n).take (p.drop HEADER_SIZE).length)
    (hn : n < b.length)
    (hn' : n + (p.drop HEADER_SIZE).length = b.length) :
    processData (accState (b.take n) a) p = doneState b := by
  have hm := packetOK_magic p hp
  have hb1 : 1 ≤ b.length := by omega
  have htn : (b.take n).length = n := by
    rw [List.length_take]
    omega
  have halloc2 : allocSlot ((accState (b.take n) a).frames
      (accState (b.take n) a).writeFrame) = ⟨b.take n, false, true⟩ := by
    show allocSlot ⟨b.take n, false, a⟩ = ⟨b.take n, false, true⟩
    exact allocSlot_acc _ _ ha
  obtain ⟨m, hm'⟩ : ∃ m, (p.drop HEADER_SIZE).length = m := ⟨_, rfl⟩
  rw [hm'] at hq hn'
  have hm0 : 0 < m := by omega
  have hl : HEADER_SIZE < p.length := by
    have := List.length_drop HEADER_SIZE p
    rw [hm'] at this
    omega
  have hnosoi : ¬ (2 ≤ (p.drop HEADER_SIZE).length ∧
      (p.drop HEADER_SIZE).take 2 = [255, 216] ∧
      0 < (Frame.mk (b.take n) false true).data.length ∧
      (Frame.mk (b.take n) false true).ready = false) := by
    rintro ⟨h2, hsoi2, hpos, -⟩
    rw [Frame_data_mk, htn] at hpos
    rw [hm'] at h2
    have htk : (p.drop HEADER_SIZE).take 2 = (b.drop n).take 2 := by
      rw [hq, List.take_take, show min 2 m = 2 by omega]
    exact hsoi n hn hpos (htk ▸ hsoi2)
  have hsd2 : soiDiscard (p.drop HEADER_SIZE) (allocSlot ((accState (b.take n) a).frames
      (accState (b.take n) a).writeFrame)) = ⟨b.take n, false, true⟩ := by
    rw [halloc2]
    unfold soiDiscard
    rw [if_neg hnosoi]
  have hov2 : (soiDiscard (p.drop HEADER_SIZE) (allocSlot ((accState (b.take n) a).frames
      (accState (b.take n) a).writeFrame))).data.length +
        (p.drop HEADER_SIZE).length ≤ BUFFER_SIZE := by
    rw [hsd2, Frame_data_mk, htn, hm']
    simp only [MAX_JPEG_SIZE, BUFFER_SIZE] at hmax ⊢
    omega
  have happ2 : (soiDiscard (p.drop HEADER_SIZE) (allocSlot ((accState (b.take n) a).frames
      (accState (b.take n) a).writeFrame))).data ++ p.drop HEADER_SIZE = b := by
    rw [hsd2, Frame_data_mk, hq]
    rw [(List.take_add b n m).symm, hn', List.take_length]
  have hscan2 : scanEOI ((soiDiscard (p.drop HEADER_SIZE)
      (allocSlot ((accState (b.take n) a).frames
        (accState (b.take n) a).writeFrame))).data ++ p.drop HEADER_SIZE) =
      some b.length := by
    rw [happ2]
    have h := scanEOI_eq_some hEOIend huniq
    rw [show b.length - 1 + 1 = b.length by omega] at h
    exact h
  rw [processData_append_some _ _ b.length hm hl hov2 hscan2]
  have hfr : ({ soiDiscard (p.drop HEADER_SIZE) (allocSlot ((accState (b.take n) a).frames
        (accState (b.take n) a).writeFrame)) with
      data := (soiDiscard (p.drop HEADER_SIZE) (allocSlot ((accState (b.take n) a).frames
        (accState (b.take n) a).writeFrame))).data ++ p.drop HEADER_SIZE } : Frame) =
      ⟨b, false, true⟩ := by
    rw [happ2, hsd2]
  rw [hfr]
  set X := setFrame (accState (b.take n) a) ((accState (b.take n) a).writeFrame)
    (⟨b, false, true⟩ : Frame) with hX
  have hXw : X.writeFrame = 0 := by
    rw [hX, setFrame_writeFrame]
    rfl
  have hXr : X.readFrame = 0 := by
    rw [hX, setFrame_readFrame]
    rfl
  have hXc : X.framesCaptured = 0 := by
    rw [hX, setFrame_framesCaptured]
    rfl
  have hXd : X.framesDropped = 0 := by
    rw [hX, setFrame_framesDropped]
    rfl
  have hXs : X.streaming = true := by
    rw [hX, setFrame_streaming]
    rfl
  have hXsw : X.frames X.writeFrame = ⟨b, false, true⟩ := by
    rw [hX, setFrame_writeFrame]
    exact setFrame_frames_self _ _ _
  have hXother : ∀ j, j ≠ 0 → X.frames j = ⟨[], false, false⟩ := by
    intro j hj
    rw [hX, setFrame_frames_other _ _ _ _ (show j ≠ (accState (b.take n) a).writeFrame from hj)]
    show (if j = 0 then (⟨b.take n, false, a⟩ : Frame) else ⟨[], false, false⟩) = _
    rw [if_neg hj]
  have hNW : (X.writeFrame + 1) % MAX_FRAMES = 1 := by
    rw [hXw]
    rfl
  have htakeb : b.take b.length = b := List.take_length b
  have hdropb : b.drop b.length = [] := List.drop_length b
  have hacc : (safetyCheck (acceptFrame X b.length)).frames 0 = ⟨b, true, true⟩ := by
    have h := accepted_slot_after X b.length
    rw [hXsw, hXw] at h
    rw [Frame_data_mk, htakeb] at h
    rw [h]
  have hnew : (safetyCheck (acceptFrame X b.length)).frames 1 = ⟨[], false, true⟩ := by
    have h := new_write_slot_after X b.length
    rw [hXsw, hNW] at h
    rw [Frame_data_mk, hdropb] at h
    rw [if_neg (show ¬ ((0 < ([] : List Nat).length ∧
        ([] : List Nat).length < BUFFER_SIZE) ∧ 2 ≤ ([] : List Nat).length) by decide)] at h
    rw [if_neg (show ¬ MAX_JPEG_SIZE < ([] : List Nat).length by decide)] at h
    exact h
  obtain ⟨hrd1, hrd2⟩ := acceptFrame_read_dropped X b.length
  have hnc : ¬ ((X.writeFrame + 1) % MAX_FRAMES = X.readFrame ∧
      (X.frames X.readFrame).ready = true) := by
    rintro ⟨h1, -⟩
    rw [hNW, hXr] at h1
    exact Nat.noConfusion h1
  apply CamState.ext
  · funext j
    by_cases hj0 : j = 0
    · rw [hj0, hacc]
      show (⟨b, true, true⟩ : Frame) =
        if (0 : Nat) = 0 then ⟨b, true, true⟩ else
          if (0 : Nat) = 1 then ⟨[], false, true⟩ else ⟨[], false, false⟩
      rw [if_pos rfl]
    · by_cases hj1 : j = 1
      · rw [hj1, hnew]
        show (⟨[], false, true⟩ : Frame) =
          if (1 : Nat) = 0 then ⟨b, true, true⟩ else
            if (1 : Nat) = 1 then ⟨[], false, true⟩ else ⟨[], false, false⟩
        rw [if_neg (by omega), if_pos rfl]
      · have h1 : j ≠ X.writeFrame := by
          rw [hXw]
          exact hj0
        have h2 : j ≠ (X.writeFrame + 1) % MAX_FRAMES := by
          rw [hNW]
          exact hj1
        rw [untouched_slot_after X b.length j h1 h2, hXother j hj0]
        show (⟨[], false, false⟩ : Frame) =
          if j = 0 then ⟨b, true, true⟩ else
            if j = 1 then ⟨[], false, true⟩ else ⟨[], false, false⟩
        rw [if_neg hj0, if_neg hj1]
  · rw [safetyCheck_writeFrame, acceptFrame_writeFrame, hNW]
    rfl
  · rw [hrd1, if_neg hnc, hXr]
    rfl
  · rw [safetyCheck_framesCaptured, acceptFrame_framesCaptured, hXc]
    rfl
  · rw [hrd2, if_neg hnc, hXd]
    rfl
  · rw [safetyCheck_streaming, acceptFrame_streaming, hXs]
    rfl

/-- Trailing packets with empty payloads leave the done state unchanged. -/
theorem C1_tail (b : List Nat) (ps : List (List Nat))
    (hpk : ∀ p ∈ ps, packetOK p)
    (hempty : ∀ p ∈ ps, p.drop HEADER_SIZE = []) :
    List.foldl processData (doneState b) ps = doneState b := by
  induction ps with
  | nil => rfl
  | cons p rest ih =>
    have hstep : processData (doneState b) p = doneState b := by
      have hm := packetOK_magic p (hpk p (List.mem_cons_self p rest))
      have hl : p.length ≤ HEADER_SIZE := by
        have h0 := hempty p (List.mem_cons_self p rest)
        have h1 := congrArg List.length h0
        rw [List.length_drop] at h1
        simp only [List.length_nil] at h1
        omega
      rw [processData_header_only _ _ hm hl]
      rw [show allocSlot ((doneState b).frames (doneState b).writeFrame) =
        (⟨[], false, true⟩ : Frame) from rfl]
      apply CamState.ext
      · funext j
        show (if j = (doneState b).writeFrame then (⟨[], false, true⟩ : Frame)
          else (doneState b).frames j) = (doneState b).frames j
        by_cases hj : j = 1
        · rw [if_pos (show j = (doneState b).writeFrame from hj), hj]
          rfl
        · rw [if_neg (show ¬ j = (doneState b).writeFrame from hj)]
      · rfl
      · rfl
      · rfl
      · rfl
      · rfl
    rw [List.foldl_cons, hstep]
    exact ih (fun x hx => hpk x (List.mem_cons_of_mem p hx))
      (fun x hx => hempty x (List.mem_cons_of_mem p hx))

/-- Folding a packet list whose payloads are the successive slices of the
rest of `b` over the accumulating state ends in the done state. -/
theorem C1_fold (b : List Nat)
    (hEOIend : eoiCond b (b.length - 1))
    (huniq : ∀ j, j < b.length - 1 → ¬ eoiCond b j)
    (hsoi : ∀ i, i < b.length → 0 < i → ¬ (b.drop i).take 2 = [255, 216])
    (hmax : b.length ≤ MAX_JPEG_SIZE + 1) :
    ∀ (ps : List (List Nat)) (n : Nat) (a : Bool),
      (∀ p ∈ ps, packetOK p) →
      (a = false → b.take n = []) →
      n < b.length →
      (ps.map (fun p => p.drop HEADER_SIZE)).flatten = b.drop n →
      List.foldl processData (accState (b.take n) a) ps = doneState b := by
  intro ps
  induction ps with
  | nil =>
    intro n a hpk ha hn hjoin
    exfalso
    have h1 := congrArg List.length hjoin
    simp only [List.map_nil, List.flatten_nil, List.length_nil, List.length_drop] at h1
    omega
  | cons p rest ih =>
    intro n a hpk ha hn hjoin
    rw [List.map_cons, List.flatten_cons] at hjoin
    have hq : p.drop HEADER_SIZE = (b.drop n).take (p.drop HEADER_SIZE).length := by
      rw [← hjoin, List.take_left]
    have hrest : (rest.map (fun p => p.drop HEADER_SIZE)).flatten =
        b.drop (n + (p.drop HEADER_SIZE).length) := by
      have h2 : (b.drop n).drop (p.drop HEADER_SIZE).length =
          b.drop (n + (p.drop HEADER_SIZE).length) := List.drop_drop _ _ _
      rw [← hjoin, List.drop_left] at h2
      exact h2
    have hle : n + (p.drop HEADER_SIZE).length ≤ b.length := by
      have h1 := congrArg List.length hjoin
      rw [List.length_append] at h1
      have h3 : (b.drop n).length = b.length - n := List.length_drop _ _
      omega
    rw [List.foldl_cons]
    by_cases hlast : n + (p.drop HEADER_SIZE).length = b.length
    · rw [C1_done_step b p n a hEOIend huniq hsoi hmax
        (hpk p (List.mem_cons_self p rest)) ha hq hn hlast]
      apply C1_tail b rest (fun x hx => hpk x (List.mem_cons_of_mem p hx))
      intro x hx
      have hnil : (rest.map (fun p => p.drop HEADER_SIZE)).flatten = [] := by
        rw [hrest, hlast, List.drop_length]
      exact List.flatten_eq_nil_iff.mp hnil _ (List.mem_map_of_mem _ hx)
    · have hlt : n + (p.drop HEADER_SIZE).length < b.length := by omega
      rw [C1_acc_step b p n a huniq hsoi hmax
        (hpk p (List.mem_cons_self p rest)) ha hq hlt]
      exact ih (n + (p.drop HEADER_SIZE).length) true
        (fun x hx => hpk x (List.mem_cons_of_mem p hx))
        (fun h => Bool.noConfusion h)
        hlt
        hrest

set_option maxRecDepth 40000 in
/-- C1 counterexample: a complete 4-byte JPEG (SOI immediately followed by
EOI) delivered in a single well-formed packet is never accepted: the
candidate frame is below MIN_JPEG_SIZE, so the scan rejects it and
camera_read_frame times out instead of returning the JPEG. -/
theorem C1_counterexample :
    (c1pkt.drop HEADER_SIZE).take 2 = [255, 216] ∧
    (c1pkt.drop HEADER_SIZE).drop ((c1pkt.drop HEADER_SIZE).length - 2) = [255, 217] ∧
    packetOK c1pkt ∧
    ([c1pkt].map (fun p => p.drop HEADER_SIZE)).flatten = c1pkt.drop HEADER_SIZE ∧
    (cameraReadFrame (List.foldl processData startedState [c1pkt]) BUFFER_SIZE).1 =
      CameraStatus.errorTimeout ∧
    CameraStatus.errorTimeout ≠ CameraStatus.success := by
  refine ⟨by decide, by decide, by decide, by decide, ?_, by decide⟩
  decide

/-- C1 (amended): reassembly is byte-exact for every slicing of a JPEG `b`
into packets, under the side conditions the code imposes: the only
scan-qualifying EOI of `b` is at its very end, the SOI pair does not recur
at any interior offset (else the SOI-restart rule can wipe the prefix), and
`b` is at most MAX_JPEG_SIZE + 1 bytes (else the safety valve wipes a long
unfinished prefix). Every packet carries the vendor magic and a 12-byte
header; the payloads concatenate to exactly `b`. -/
theorem C1_reassembly (b : List Nat) (ps : List (List Nat)) (bufSize : Nat)
    (hEOIend : eoiCond b (b.length - 1))
    (huniq : ∀ j, j < b.length - 1 → ¬ eoiCond b j)
    (hsoi : ∀ i, i < b.length → 0 < i → ¬ (b.drop i).take 2 = [255, 216])
    (hmax : b.length ≤ MAX_JPEG_SIZE + 1)
    (hpk : ∀ p ∈ ps, packetOK p)
    (hjoin : (ps.map (fun p => p.drop HEADER_SIZE)).flatten = b)
    (hbs : b.length ≤ bufSize) :
    (cameraReadFrame (List.foldl processData startedState ps) bufSize).1 =
      CameraStatus.success ∧
    (cameraReadFrame (List.foldl processData startedState ps) bufSize).2.1 = b := by
  have hb1 : 0 < b.length := by
    have h5 := hEOIend.2.2.2.2.1
    simp only [MIN_JPEG_SIZE] at h5
    omega
  have hstart : startedState = accState (b.take 0) false := by
    rw [List.take_zero]
    exact startedState_accState
  rw [hstart, C1_fold b hEOIend huniq hsoi hmax ps 0 false hpk
    (fun _ => List.take_zero b) hb1 (by rw [List.drop_zero]; exact hjoin)]
  constructor
  · unfold cameraReadFrame
    rw [if_neg (show ¬ (doneState b).streaming = false from fun h => Bool.noConfusion h)]
    simp only []
    rw [show (doneState b).frames (doneState b).readFrame =
      (⟨b, true, true⟩ : Frame) from rfl]
    rw [if_pos (show (Frame.mk b true true).ready = true from rfl)]
    rw [if_neg (show ¬ bufSize < (Frame.mk b true true).data.length by
      rw [Frame_data_mk]
      omega)]
  · unfold cameraReadFrame
    rw [if_neg (show ¬ (doneState b).streaming = false from fun h => Bool.noConfusion h)]
    simp only []
    rw [show (doneState b).frames (doneState b).readFrame =
      (⟨b, true, true⟩ : Frame) from rfl]
    rw [if_pos (show (Frame.mk b true true).ready = true from rfl)]
    rw [if_neg (show ¬ bufSize < (Frame.mk b true true).data.length by
      rw [Frame_data_mk]
      omega)]

set_option maxRecDepth 40000 in
/-- The SOI pair does not recur at any interior offset of jpegF 1. -/
theorem jpegF1_no_inner_soi :
    ∀ i, i < (jpegF 1).length → 0 < i → ¬ ((jpegF 1).drop i).take 2 = [255, 216] := by
  have hmid : ∀ i, 3 ≤ i → i ≤ 997 → (jpegF 1).getD i 0 = 0 := by
    intro i h3 h997
    show ([255, 216, 1] ++ (List.replicate 995 0 ++ [255, 217])).getD i 0 = 0
    rw [List.getD_append_right _ _ _ _ (by
      rw [show ([255, 216, 1] : List Nat).length = 3 from rfl]
      omega)]
    rw [show ([255, 216, 1] : List Nat).length = 3 from rfl]
    rw [List.getD_append _ _ _ _ (by rw [List.length_replicate]; omega)]
    rw [List.getD_eq_getElem _ _ (by rw [List.length_replicate]; omega)]
    exact List.getElem_replicate _ _
  intro i hlen hpos hc
  rw [jpegF_length] at hlen
  by_cases hi9 : i = 999
  · subst hi9
    revert hc
    decide
  · rw [take_two_of_drop _ _ (by rw [jpegF_length]; omega)] at hc
    have h255 : (jpegF 1).getD i 0 = 255 := by
      injection hc
    have h216 : (jpegF 1).getD (i + 1) 0 = 216 := by
      injection hc with h1 h2
      injection h2
    by_cases hi1 : i = 1
    · subst hi1
      revert h255
      decide
    · by_cases hi2 : i = 2
      · subst hi2
        revert h255
        decide
      · by_cases hi8 : i = 998
        · subst hi8
          revert h216
          decide
        · rw [hmid i (by omega) (by omega)] at h255
          exact absurd h255 (by decide)

set_option maxRecDepth 1000000 in
set_option maxHeartbeats 2000000 in
/-- Witness for C1: the 1000-byte frame jpegF 1 delivered in one packet. -/
theorem C1_witness :
    eoiCond (jpegF 1) ((jpegF 1).length - 1) ∧
    (∀ j, j < (jpegF 1).length - 1 → ¬ eoiCond (jpegF 1) j) ∧
    (∀ i, i < (jpegF 1).length → 0 < i → ¬ ((jpegF 1).drop i).take 2 = [255, 216]) ∧
    (jpegF 1).length ≤ MAX_JPEG_SIZE + 1 ∧
    (∀ p ∈ [framePkt 1], packetOK p) ∧
    ([framePkt 1].map (fun p => p.drop HEADER_SIZE)).flatten = jpegF 1 ∧
    (jpegF 1).length ≤ BUFFER_SIZE ∧
    ((cameraReadFrame (List.foldl processData startedState [framePkt 1]) BUFFER_SIZE).1 =
      CameraStatus.success ∧
     (cameraReadFrame (List.foldl processData startedState [framePkt 1]) BUFFER_SIZE).2.1 =
      jpegF 1) :=
  ⟨by decide,
   by
    intro j hj hc
    rw [jpegF_length] at hj
    exact absurd hc.2.2.2.2.1 (by simp only [MIN_JPEG_SIZE]; omega),
   jpegF1_no_inner_soi,
   by decide,
   by decide,
   by decide,
   by decide,
   C1_reassembly (jpegF 1) [framePkt 1] BUFFER_SIZE (by decide)
     (by
      intro j hj hc
      rw [jpegF_length] at hj
      exact absurd hc.2.2.2.2.1 (by simp only [MIN_JPEG_SIZE]; omega))
     jpegF1_no_inner_soi (by decide) (by decide) (by decide) (by decide)⟩

end Useeplus
